import Mathlib

/-!
Shallow embedding of the LinDB broker distributed-query task coordinator
(`src/query/broker/task_manager.go`, which contains both the task manager and
the task-context state machines).

Modelling conventions:
* Go `int32`/`int64` counters are modelled as `Int` (the values reachable in
  these claims stay far from the 32-bit boundaries, so wrap-around is not
  modelled).
* Go maps keyed by strings are modelled as association lists with a
  last-writer-wins update.
* The serialized protobuf payload of a `TaskResponse` is modelled by its
  decode result: `payload : Option TimeSeriesList` where `none` stands for
  bytes rejected by `TimeSeriesList.Unmarshal`; `payloadLen` keeps the byte
  length of the serialized form (used only for the `NetPayload` statistic).
* Unbuffered-channel operations are modelled as an action trace
  (`send`/`close`).  A non-blocking `select { case ch <- v: default: }` sends
  iff a reader is currently blocked on the channel; this is the `readerReady`
  parameter: when it is `false` the send falls through to `default` and the
  value is dropped.
* Wall-clock values (`time.Now`, `fasttime`) are not modelled numerically;
  `QueryStats.End` assignment is recorded by the boolean `endSet`.
-/

/-- Character-list version of Go `strings.HasPrefix`: does the first list
start with the second? -/
def charsStartWith : List Char → List Char → Bool
  | _, [] => true
  | [], _ :: _ => false
  | a :: s, b :: t => a == b && charsStartWith s t

/-- Character-list version of Go `strings.Contains`: does the first list
contain the second as a contiguous run? -/
def charsContain : List Char → List Char → Bool
  | [], sub => charsStartWith [] sub
  | a :: s, sub => charsStartWith (a :: s) sub || charsContain s sub

/-- Go `strings.Contains` on strings. -/
def goContains (s sub : String) : Bool :=
  charsContain s.toList sub.toList

/-- Model of `TaskType` of a task context (`RootTask` / `IntermediateTask`). -/
inductive TaskType
  | RootTask
  | IntermediateTask
deriving DecidableEq

/-- Model of `protoCommonV1.TaskType` carried on a response, as far as `handleStats`
distinguishes it (the `Intermediate` case against the default leaf case). -/
inductive RespType
  | intermediate
  | leaf
deriving DecidableEq

/-- Model of `protoCommonV1.AggregatorSpec`. -/
structure AggregatorSpec where
  fieldName : String
  fieldType : Nat
  funcTypeList : List Nat
deriving DecidableEq

/-- One `protoCommonV1.TimeSeries`: tags plus field name → serialized field
data. -/
structure TimeSeries where
  tags : List (String × String)
  fields : List (String × List Nat)
deriving DecidableEq

/-- Model of `protoCommonV1.TimeSeriesList`. -/
structure TimeSeriesList where
  timeSeriesList : List TimeSeries
  fieldAggSpecs : List AggregatorSpec
deriving DecidableEq

/-- Model of `protoCommonV1.TaskResponse` (see the payload modelling convention in the
file header). -/
structure TaskResponse where
  taskID : String
  type : RespType
  errMsg : String
  payload : Option TimeSeriesList
  payloadLen : Nat
  stats : List Nat
deriving DecidableEq

/-- An error value flowing out of `handleTaskResponse`:
`errors.New(errMsg)` or the opaque error of `TimeSeriesList.Unmarshal`. -/
inductive TaskErr
  | msg (s : String)
  | decodeFailure
deriving DecidableEq

/-- Model of `models.QueryStats` as far as the coordinator touches it: lazily created,
merged per node, with `NetPayload` accumulation and a terminal `End`
assignment (recorded by `endSet`). -/
structure QueryStats where
  start : Int := 0
  endSet : Bool := false
  netPayload : Int := 0
  brokerNodes : List (String × List Nat) := []
  leafNodes : List (String × List Nat × Int) := []
deriving DecidableEq

/-- The part of `stmt.Query` the coordinator reads: interval and time range,
handed to the grouping-aggregator constructor. -/
structure QueryStmt where
  interval : Int
  timeRange : Int × Int
deriving DecidableEq

/-- Argument of `GroupingAggregator.Aggregate`
(`series.NewGroupedIterator(tags, fields)`). -/
structure GroupedIter where
  tags : List (String × String)
  fields : List (String × List Nat)
deriving DecidableEq

/-- Modelled from the spec: the repository sources here do not include the
`aggregation.GroupingAggregator` implementation; spec §4.5 fixes its contract
as exactly three operations — constructor `new(interval, ratio, timeRange,
specs)`, `Aggregate(GroupedIterator)`, `ResultSet()` — with no assumption on
internal storage.  We model it by its observable interaction history: the
constructor arguments plus the list of `Aggregate` calls. -/
structure GroupingAggregator where
  interval : Int
  ratio : Nat
  timeRange : Int × Int
  specs : List (String × Nat × List Nat)
  aggregated : List GroupedIter
deriving DecidableEq

/-- Model of `aggregation.NewGroupingAggregator`. -/
def newGroupingAgg (interval : Int) (ratio : Nat) (timeRange : Int × Int)
    (specs : List (String × Nat × List Nat)) : GroupingAggregator :=
  { interval := interval, ratio := ratio, timeRange := timeRange,
    specs := specs, aggregated := [] }

/-- Model of `GroupingAggregator.Aggregate`. -/
def GroupingAggregator.aggregate (g : GroupingAggregator) (it : GroupedIter) :
    GroupingAggregator :=
  { g with aggregated := g.aggregated ++ [it] }

/-- Model of `GroupingAggregator.ResultSet`: the merged `GroupedIterators`, opaque to
the coordinator; in the interaction model it is determined by the aggregation
history. -/
def GroupingAggregator.resultSet (g : GroupingAggregator) : List GroupedIter :=
  g.aggregated

/-- The `aggregation.AggregatorSpecs` built in `handleTaskResponse` from the
response `FieldAggSpecs` (`NewAggregatorSpec(fieldName, fieldType)` followed
by `AddFunctionType` for each listed function). -/
def newAggregatorSpecs (fieldAggSpecs : List AggregatorSpec) :
    List (String × Nat × List Nat) :=
  fieldAggSpecs.map (fun s => (s.fieldName, s.fieldType, s.funcTypeList))

/-- Go map assignment `m[spec.FieldName] = spec` on the association-list
model (last writer wins). -/
def insertSpec (m : List (String × AggregatorSpec)) (s : AggregatorSpec) :
    List (String × AggregatorSpec) :=
  (m.filter (fun kv => kv.1 != s.fieldName)) ++ [(s.fieldName, s)]

/-- Model of `metricTaskContext`: the root/intermediate metric-query state machine
(its `baseTaskContext` header inlined). -/
structure MetricTaskContext where
  taskID : String
  taskType : TaskType
  parentTaskID : String
  parentNode : String
  expectResults : Int
  closed : Bool
  stmtQuery : QueryStmt
  aggregatorSpecs : List (String × AggregatorSpec)
  groupAgg : Option GroupingAggregator
  stats : Option QueryStats
  tolerantNotFounds : Int
  startTime : Int
deriving DecidableEq

/-- Model of `newMetricTaskContext`: fresh context with `tolerantNotFounds`
initialized to `expectResults`. -/
def newMetricTaskContext (taskID : String) (taskType : TaskType)
    (parentTaskID parentNode : String) (stmtQuery : QueryStmt)
    (expectResults : Int) : MetricTaskContext :=
  { taskID := taskID, taskType := taskType, parentTaskID := parentTaskID,
    parentNode := parentNode, expectResults := expectResults, closed := false,
    stmtQuery := stmtQuery, aggregatorSpecs := [], groupAgg := none,
    stats := none, tolerantNotFounds := expectResults, startTime := 0 }

/-- Model of `metricTaskContext.checkError`: returns the updated context together with
`(ignoreResponse, err)`. -/
def MetricTaskContext.checkError (c : MetricTaskContext) (errMsg : String) :
    MetricTaskContext × Bool × Option TaskErr :=
  if errMsg = "" then (c, false, none)
  else if ¬ goContains errMsg "not found" then (c, true, some (.msg errMsg))
  else
    let c := { c with tolerantNotFounds := c.tolerantNotFounds - 1 }
    if c.tolerantNotFounds > 0 then (c, true, none)
    else (c, true, some (.msg errMsg))

/-- Model of `metricTaskContext.handleStats`: lazily creates `stats` and merges the
response statistics keyed by the sending node. -/
def MetricTaskContext.handleStats (c : MetricTaskContext)
    (resp : TaskResponse) (fromNode : String) : MetricTaskContext :=
  if resp.stats.length = 0 then c
  else
    let s := match c.stats with
      | some s => s
      | none => { start := c.startTime }
    match resp.type with
    | .intermediate =>
        { c with stats := some { s with
            brokerNodes := s.brokerNodes ++ [(fromNode, resp.stats)] } }
    | .leaf =>
        let np : Int := (resp.stats.length : Int) + (resp.payloadLen : Int)
        { c with stats := some { s with
            leafNodes := s.leafNodes ++ [(fromNode, resp.stats, np)],
            netPayload := s.netPayload + np } }

/-- The final `for _, ts := range tsList.TimeSeriesList` loop of
`handleTaskResponse`: a series with empty `Fields` makes the whole call
return `nil` immediately; otherwise the series is fed to the grouping
aggregator. -/
def MetricTaskContext.aggregateSeries (c : MetricTaskContext) :
    List TimeSeries → MetricTaskContext × Option TaskErr
  | [] => (c, none)
  | ts :: rest =>
    if ts.fields.length = 0 then (c, none)
    else
      let c := { c with groupAgg := (c.groupAgg.map
        (fun g => g.aggregate { tags := ts.tags, fields := ts.fields })) }
      MetricTaskContext.aggregateSeries c rest

/-- Model of `metricTaskContext.handleTaskResponse`. -/
def MetricTaskContext.handleTaskResponse (c0 : MetricTaskContext)
    (resp : TaskResponse) (fromNode : String) :
    MetricTaskContext × Option TaskErr :=
  let c := c0.handleStats resp fromNode
  let r := c.checkError resp.errMsg
  let c := r.1
  match r.2.2 with
  | some e => (c, some e)
  | none =>
    if r.2.1 then (c, none)
    else
      match resp.payload with
      | none => (c, some .decodeFailure)
      | some tsList =>
        if tsList.fieldAggSpecs.length = 0 then (c, none)
        else
          let c := { c with aggregatorSpecs :=
            tsList.fieldAggSpecs.foldl insertSpec c.aggregatorSpecs }
          let c := match c.groupAgg with
            | some _ => c
            | none => { c with groupAgg := some (newGroupingAgg
                c.stmtQuery.interval 1 c.stmtQuery.timeRange
                (newAggregatorSpecs tsList.fieldAggSpecs)) }
          c.aggregateSeries tsList.timeSeriesList

/-- Model of `series.TimeSeriesEvent`. -/
structure TimeSeriesEvent where
  err : Option TaskErr := none
  aggregatorSpecs : List (String × AggregatorSpec) := []
  seriesList : Option (List GroupedIter) := none
  stats : Option QueryStats := none
deriving DecidableEq

/-- Observable actions on the metric event channel. -/
inductive MetricChanAct
  | send (ev : TimeSeriesEvent)
  | close
deriving DecidableEq

/-- The deferred closure of `metricTaskContext.WriteResponse`: close the
event channel (and set `closed`) iff `expectResults ≤ 0` at exit. -/
def MetricTaskContext.deferClose (c : MetricTaskContext)
    (acts : List MetricChanAct) : MetricTaskContext × List MetricChanAct :=
  if c.expectResults ≤ 0 then ({ c with closed := true }, acts ++ [.close])
  else (c, acts)

/-- Model of `metricTaskContext.WriteResponse` as a state transformer emitting the
channel-action trace of the call. -/
def MetricTaskContext.writeResponse (c0 : MetricTaskContext)
    (resp : TaskResponse) (fromNode : String) (readerReady : Bool) :
    MetricTaskContext × List MetricChanAct :=
  let c := { c0 with expectResults := c0.expectResults - 1 }
  if c.closed then (c, [])
  else
    let r := c.handleTaskResponse resp fromNode
    match r.2 with
    | some e =>
        (r.1).deferClose
          (if readerReady then [.send { err := some e, stats := r.1.stats }] else [])
    | none =>
        let c := r.1
        if c.expectResults > 0 then c.deferClose []
        else
          let seriesList := c.groupAgg.map GroupingAggregator.resultSet
          let c := match c.stats with
            | some s => { c with stats := some { s with endSet := true } }
            | none => c
          c.deferClose
            (if readerReady then
              [.send { aggregatorSpecs := c.aggregatorSpecs,
                       seriesList := seriesList, stats := c.stats }]
             else [])

/-- Model of `TaskContext.Done` for the metric context. -/
def MetricTaskContext.taskDone (c : MetricTaskContext) : Bool :=
  c.expectResults ≤ 0

/-- Fold of `writeResponse` over a list of incoming `(response, fromNode)`
pairs, concatenating the channel traces. -/
def MetricTaskContext.run (c : MetricTaskContext) (readerReady : Bool) :
    List (TaskResponse × String) → MetricTaskContext × List MetricChanAct
  | [] => (c, [])
  | p :: rest =>
    let r := c.writeResponse p.1 p.2 readerReady
    let r2 := r.1.run readerReady rest
    (r2.1, r.2 ++ r2.2)

/-- Model of `intermediateAckTaskContext` (header inlined). -/
structure IntermediateAckTaskContext where
  taskID : String
  taskType : TaskType
  parentTaskID : String
  parentNode : String
  expectResults : Int
  closed : Bool
deriving DecidableEq

/-- Model of `newIntermediateAckTaskContext`. -/
def newIntermediateAckTaskContext (taskID : String) (taskType : TaskType)
    (expectResults : Int) : IntermediateAckTaskContext :=
  { taskID := taskID, taskType := taskType, parentTaskID := "",
    parentNode := "", expectResults := expectResults, closed := false }

/-- Observable actions on the ack error channel (`chan error`): a sent value
is `none` for the `nil` success event, `some msg` for `errors.New(msg)`. -/
inductive AckChanAct
  | send (err : Option String)
  | close
deriving DecidableEq

/-- Model of `intermediateAckTaskContext.WriteResponse`. -/
def IntermediateAckTaskContext.writeResponse (c0 : IntermediateAckTaskContext)
    (resp : TaskResponse) (readerReady : Bool) :
    IntermediateAckTaskContext × List AckChanAct :=
  let c := { c0 with expectResults := c0.expectResults - 1 }
  if c.closed then (c, [])
  else
    let fin := fun (acts : List AckChanAct) =>
      if c.expectResults ≤ 0 then ({ c with closed := true }, acts ++ [AckChanAct.close])
      else (c, acts)
    if resp.errMsg ≠ "" then
      fin (if readerReady then [.send (some resp.errMsg)] else [])
    else if c.expectResults > 0 then fin []
    else fin (if readerReady then [.send none] else [])

/-- Model of `metaDataTaskContext` (header inlined). -/
structure MetaDataTaskContext where
  taskID : String
  taskType : TaskType
  parentTaskID : String
  parentNode : String
  expectResults : Int
  closed : Bool
deriving DecidableEq

/-- Model of `newMetaDataTaskContext`. -/
def newMetaDataTaskContext (taskID : String) (taskType : TaskType)
    (parentTaskID parentNode : String) (expectResults : Int) :
    MetaDataTaskContext :=
  { taskID := taskID, taskType := taskType, parentTaskID := parentTaskID,
    parentNode := parentNode, expectResults := expectResults, closed := false }

/-- Observable actions on the metadata response channel. -/
inductive MetaChanAct
  | send (resp : TaskResponse)
  | close
deriving DecidableEq

/-- Model of `metaDataTaskContext.WriteResponse`: forwards the raw response through a
non-blocking send; the close happens inside the successful-send branch. -/
def MetaDataTaskContext.writeResponse (c0 : MetaDataTaskContext)
    (resp : TaskResponse) (readerReady : Bool) :
    MetaDataTaskContext × List MetaChanAct :=
  let c := { c0 with expectResults := c0.expectResults - 1 }
  if c.closed then (c, [])
  else if readerReady then
    if c.expectResults ≤ 0 then ({ c with closed := true }, [.send resp, .close])
    else (c, [.send resp])
  else (c, [])

/-- Decimal rendering of a natural number, as `fmt.Sprintf("%d", n)` prints
it (most-significant digit first). -/
def natDecimal (n : Nat) : List Char :=
  (Nat.digits 10 n).reverse.map Nat.digitChar

/-- The task-id string `fmt.Sprintf("%s-%d", currentNodeID, seq)`. -/
def mkTaskID (nodeID : String) (seq : Nat) : String :=
  nodeID ++ "-" ++ String.mk (natDecimal seq)

/-- Model of `metrics.BrokerQueryStatistics`: the counters the task manager updates. -/
structure BrokerQueryStatistics where
  createdTasks : Int := 0
  aliveTask : Int := 0
  expireTasks : Int := 0
  omitResponse : Int := 0
  emitResponse : Int := 0
  sentRequest : Int := 0
  sentRequestFailures : Int := 0
deriving DecidableEq

/-- The `TaskContext` interface as the sum of its three implementations. -/
inductive TaskContext
  | ack (c : IntermediateAckTaskContext)
  | metric (c : MetricTaskContext)
  | metaData (c : MetaDataTaskContext)
deriving DecidableEq

/-- Model of `taskManager`: node id, atomic sequence, task table (`sync.Map` as an
association list) and statistics. -/
structure TaskManager where
  currentNodeID : String
  seq : Nat
  tasks : List (String × TaskContext)
  statistics : BrokerQueryStatistics
deriving DecidableEq

/-- Model of `taskManager.AllocTaskID`: increment the sequence, render the id. -/
def TaskManager.allocTaskID (t : TaskManager) : String × TaskManager :=
  let seq := t.seq + 1
  (mkTaskID t.currentNodeID seq, { t with seq := seq })

/-- Model of `taskManager.Get`: table lookup. -/
def TaskManager.taskGet (t : TaskManager) (taskID : String) :
    Option TaskContext :=
  (t.tasks.find? (fun kv => kv.1 == taskID)).map (fun kv => kv.2)

/-- Model of `taskManager.storeTask`: `sync.Map.Store` plus counters. -/
def TaskManager.storeTask (t : TaskManager) (taskID : String)
    (c : TaskContext) : TaskManager :=
  { t with
    tasks := (t.tasks.filter (fun kv => kv.1 != taskID)) ++ [(taskID, c)],
    statistics := { t.statistics with
      createdTasks := t.statistics.createdTasks + 1,
      aliveTask := t.statistics.aliveTask + 1 } }

/-- Model of `taskManager.evictTask`: `LoadAndDelete`, decrementing `AliveTask` only
when the id was present. -/
def TaskManager.evictTask (t : TaskManager) (taskID : String) : TaskManager :=
  if (t.taskGet taskID).isSome then
    { t with
      tasks := t.tasks.filter (fun kv => kv.1 != taskID),
      statistics := { t.statistics with
        aliveTask := t.statistics.aliveTask - 1 } }
  else t

/-- Model of `taskManager.Receive`, up to its synchronous effects: the table lookup,
the counter updates and the returned error.  The closure submitted to the
worker pool (`WriteResponse` then evict-if-`Done`) runs asynchronously and is
modelled by the `writeResponse` functions above. -/
def TaskManager.receive (t : TaskManager) (resp : TaskResponse) :
    TaskManager × Option String :=
  match t.taskGet resp.taskID with
  | none =>
      ({ t with statistics := { t.statistics with
          omitResponse := t.statistics.omitResponse + 1 } },
       some ("TaskID: " ++ resp.taskID ++ " may be evicted"))
  | some _ =>
      ({ t with statistics := { t.statistics with
          emitResponse := t.statistics.emitResponse + 1 } },
       none)

/-- A node reference of the physical plan (`models.Target` indicator). -/
structure PlanNode where
  indicator : String
deriving DecidableEq

/-- Model of `models.Root`. -/
structure RootNode where
  indicator : String
  numOfTask : Int
deriving DecidableEq

/-- Model of `models.PhysicalPlan`. -/
structure PhysicalPlan where
  root : RootNode
  intermediates : List PlanNode
  leaves : List PlanNode
deriving DecidableEq

/-- What the `select` in `ensureIntermediateAckTasks` observes on the ack
channel: a received event (`ok = true`, value `nil` or an error), the channel
closed without a value (`ok = false`), or the caller's context firing. -/
inductive AckWaitOutcome
  | received (err : Option String)
  | chanClosed
  | ctxCanceled
deriving DecidableEq

/-- Environment of a submit run: the outcome `SendRequest` would have for
each target indicator (`none` = delivered) and the ack-channel wait
observation. -/
structure SubmitEnv where
  sendErr : String → Option String
  ackWait : AckWaitOutcome

/-- Errors a submit can return. -/
inductive SubmitErr
  | errTimeout
  | missingAcks
  | ackErr (msg : String)
  | sendFailure (msg : String)
deriving DecidableEq

/-- Model of `protoCommonV1.TaskType` of an outbound request. -/
inductive ReqType
  | intermediateReq
  | leafReq
deriving DecidableEq

/-- Observable task-manager actions of a submit run. -/
inductive TMAct
  | storeTask (taskID : String)
  | evictTask (taskID : String)
  | sendRequest (target : String) (reqType : ReqType) (parentTaskID : String)
deriving DecidableEq

/-- Model of `taskManager.SendRequest` against the environment: statistics update plus
the outcome. -/
def TaskManager.sendRequest (t : TaskManager) (env : SubmitEnv)
    (target : String) : TaskManager × Option String :=
  match env.sendErr target with
  | some e =>
      ({ t with statistics := { t.statistics with
          sentRequestFailures := t.statistics.sentRequestFailures + 1 } },
       some e)
  | none =>
      ({ t with statistics := { t.statistics with
          sentRequest := t.statistics.sentRequest + 1 } },
       none)

/-- One parallel fanout (`workerPool.Submit` per target then `wg.Wait()`),
linearized in plan order; the final `atomic.Error` slot holds the error of
the last failing send (`none` when every send succeeded). -/
def TaskManager.fanout (t : TaskManager) (env : SubmitEnv) (rt : ReqType)
    (parent : String) : List PlanNode → TaskManager × List TMAct × Option String
  | [] => (t, [], none)
  | n :: rest =>
    let s := t.sendRequest env n.indicator
    let r := TaskManager.fanout s.1 env rt parent rest
    (r.1, TMAct.sendRequest n.indicator rt parent :: r.2.1,
     match r.2.2 with
     | some e => some e
     | none => s.2)

/-- Model of `taskManager.ensureIntermediateAckTasks`: register the ack context, fan
the `Intermediate` request out, wait on the ack channel, and (deferred on
every path) evict the ack context. -/
def TaskManager.ensureIntermediateAckTasks (t0 : TaskManager)
    (env : SubmitEnv) (plan : PhysicalPlan) (parentTaskID : String) :
    TaskManager × List TMAct × Option SubmitErr :=
  let ackCtx := TaskContext.ack (newIntermediateAckTaskContext parentTaskID
    TaskType.RootTask (plan.intermediates.length : Int))
  let t := t0.storeTask parentTaskID ackCtx
  let f := t.fanout env ReqType.intermediateReq parentTaskID plan.intermediates
  let acts := TMAct.storeTask parentTaskID :: f.2.1
  let result : Option SubmitErr :=
    match f.2.2 with
    | some e => some (.sendFailure e)
    | none =>
      match env.ackWait with
      | .received none => none
      | .received (some msg) => some (.ackErr msg)
      | .chanClosed => some .missingAcks
      | .ctxCanceled => some .errTimeout
  (f.1.evictTask parentTaskID, acts ++ [TMAct.evictTask parentTaskID], result)

/-- The leaf phase of `SubmitMetricTask`: register the metric context with
`expectResults = plan.Root.NumOfTask`, fan the `Leaf` request out; on any
send failure evict the root task and return the error (the response channel
is returned in every case, recorded by the `Bool`). -/
def TaskManager.submitLeafPhase (t0 : TaskManager) (env : SubmitEnv)
    (plan : PhysicalPlan) (stmtQuery : QueryStmt) (rootTaskID : String)
    (acts0 : List TMAct) : TaskManager × List TMAct × Bool × Option SubmitErr :=
  let taskCtx := TaskContext.metric (newMetricTaskContext rootTaskID
    TaskType.RootTask "" "" stmtQuery plan.root.numOfTask)
  let t := t0.storeTask rootTaskID taskCtx
  let f := t.fanout env ReqType.leafReq rootTaskID plan.leaves
  let acts := acts0 ++ TMAct.storeTask rootTaskID :: f.2.1
  match f.2.2 with
  | some e =>
      (f.1.evictTask rootTaskID, acts ++ [TMAct.evictTask rootTaskID],
       true, some (.sendFailure e))
  | none => (f.1, acts, true, none)

/-- Model of `taskManager.SubmitMetricTask`: allocate the root task id; when the plan
has intermediates run the ack handshake first and stop on its error (the
returned `Bool` is `false` for the `nil` channel of that path); then the leaf
phase. -/
def TaskManager.submitMetricTask (t0 : TaskManager) (env : SubmitEnv)
    (plan : PhysicalPlan) (stmtQuery : QueryStmt) :
    TaskManager × List TMAct × Bool × Option SubmitErr :=
  let a := t0.allocTaskID
  if plan.intermediates.length > 0 then
    let r := a.2.ensureIntermediateAckTasks env plan a.1
    match r.2.2 with
    | some e => (r.1, r.2.1, false, some e)
    | none => TaskManager.submitLeafPhase r.1 env plan stmtQuery a.1 r.2.1
  else TaskManager.submitLeafPhase a.2 env plan stmtQuery a.1 []

/-- A run of `n` successive `AllocTaskID` calls, collecting the returned
ids. -/
def TaskManager.allocRun (t : TaskManager) : Nat → List String × TaskManager
  | 0 => ([], t)
  | n + 1 =>
    let a := t.allocTaskID
    let r := a.2.allocRun n
    (a.1 :: r.1, r.2)

/-- Left inverse of `Nat.digitChar` on decimal digits. -/
def charToDigitVal (c : Char) : Nat :=
  if c = '0' then 0 else if c = '1' then 1 else if c = '2' then 2
  else if c = '3' then 3 else if c = '4' then 4 else if c = '5' then 5
  else if c = '6' then 6 else if c = '7' then 7 else if c = '8' then 8 else 9

theorem charToDigitVal_digitChar (d : Nat) (hd : d < 10) :
    charToDigitVal (Nat.digitChar d) = d := by
  interval_cases d <;> decide

theorem map_charToDigit_round (l : List Nat) (hl : ∀ d ∈ l, d < 10) :
    (l.map Nat.digitChar).map charToDigitVal = l := by
  induction l with
  | nil => rfl
  | cons a t ih =>
    simp only [List.map_cons, List.cons.injEq]
    exact ⟨charToDigitVal_digitChar a (hl a (List.mem_cons_self a t)),
           ih fun d hd => hl d (List.mem_cons_of_mem a hd)⟩

theorem natDecimal_inj {m n : Nat} (h : natDecimal m = natDecimal n) : m = n := by
  have hmap := congrArg (List.map charToDigitVal) h
  rw [natDecimal, natDecimal,
      map_charToDigit_round _ (fun d hd => Nat.digits_lt_base (by norm_num)
        (List.mem_reverse.mp hd)),
      map_charToDigit_round _ (fun d hd => Nat.digits_lt_base (by norm_num)
        (List.mem_reverse.mp hd))] at hmap
  have hdig : Nat.digits 10 m = Nat.digits 10 n := by
    have := congrArg List.reverse hmap
    simpa using this
  exact Nat.digits_inj_iff.mp hdig

theorem mkTaskID_inj (nodeID : String) {i j : Nat}
    (h : mkTaskID nodeID i = mkTaskID nodeID j) : i = j := by
  apply natDecimal_inj
  have hd := congrArg String.data h
  simp only [mkTaskID, String.data_append] at hd
  rw [List.append_assoc, List.append_assoc] at hd
  have h1 := List.append_cancel_left hd
  exact List.append_cancel_left h1

theorem allocRun_spec (t : TaskManager) (n : Nat) :
    (t.allocRun n).1 =
      (List.range n).map (fun i => mkTaskID t.currentNodeID (t.seq + 1 + i)) ∧
    (t.allocRun n).2.seq = t.seq + n := by
  induction n generalizing t with
  | zero => simp [TaskManager.allocRun]
  | succ k ih =>
    have ha : t.allocTaskID.2 = { t with seq := t.seq + 1 } := rfl
    have h2 := ih { t with seq := t.seq + 1 }
    constructor
    · show t.allocTaskID.1 :: (TaskManager.allocRun _ k).1 = _
      rw [List.range_succ_eq_map, List.map_cons, List.map_map]
      refine congrArg₂ _ rfl ?_
      rw [ha, h2.1]
      refine List.map_congr_left fun i _ => ?_
      simp only [Function.comp]
      congr 1
      omega
    · show (TaskManager.allocRun _ k).2.seq = _
      rw [ha, h2.2]
      show t.seq + 1 + k = t.seq + (k + 1)
      omega

/-- C9: every `AllocTaskID` call increments the sequence and returns
`currentNodeID ++ "-" ++ seq`; across any run of successive calls on the same
manager the returned task ids are pairwise distinct, so ids are never reused
within a process lifetime. -/
theorem allocTaskID_increments_and_ids_unique (t : TaskManager) (n : Nat) :
    (t.allocTaskID.2.seq = t.seq + 1 ∧
     t.allocTaskID.1 = mkTaskID t.currentNodeID (t.seq + 1)) ∧
    ((t.allocRun n).1).Nodup := by
  refine ⟨⟨rfl, rfl⟩, ?_⟩
  rw [(allocRun_spec t n).1]
  refine List.Nodup.map ?_ (List.nodup_range n)
  intro a b hab
  have := mkTaskID_inj _ hab
  omega

/-- C6: a `Receive` for a task id absent from the table increments
`OmitResponse`, returns a non-nil error, and leaves the task table unchanged
(no context is created); for a present id it increments `EmitResponse` and
returns nil (the response is then processed asynchronously). -/
theorem receive_routes_by_task_table (t : TaskManager) (resp : TaskResponse) :
    (t.taskGet resp.taskID = none →
      (t.receive resp).2.isSome = true ∧
      (t.receive resp).1.statistics.omitResponse = t.statistics.omitResponse + 1 ∧
      (t.receive resp).1.statistics.emitResponse = t.statistics.emitResponse ∧
      (t.receive resp).1.tasks = t.tasks) ∧
    (t.taskGet resp.taskID ≠ none →
      (t.receive resp).2 = none ∧
      (t.receive resp).1.statistics.emitResponse = t.statistics.emitResponse + 1 ∧
      (t.receive resp).1.statistics.omitResponse = t.statistics.omitResponse ∧
      (t.receive resp).1.tasks = t.tasks) := by
  constructor
  · intro h
    simp [TaskManager.receive, h]
  · intro h
    rcases Option.ne_none_iff_exists'.mp h with ⟨c, hc⟩
    simp [TaskManager.receive, hc]

/-- Sample statement, manager and responses reused by concrete witnesses. -/
def sampleQuery : QueryStmt := { interval := 10, timeRange := (0, 100) }

def sampleManager : TaskManager :=
  { currentNodeID := "1.1.1.1:9000", seq := 0, tasks := [], statistics := {} }

def sampleUnknownResp : TaskResponse :=
  { taskID := "2.2.2.2:9000-7", type := .leaf, errMsg := "",
    payload := none, payloadLen := 0, stats := [] }

/-- Witness for C6 at a concrete manager and response: the empty task table
misses the response's task id, so `Receive` returns an error, bumps
`OmitResponse` and leaves the table empty; after storing a context under that
id, `Receive` succeeds and bumps `EmitResponse`. -/
theorem receive_routes_by_task_table_witness :
    ((sampleManager.receive sampleUnknownResp).2.isSome = true ∧
     (sampleManager.receive sampleUnknownResp).1.statistics.omitResponse =
       sampleManager.statistics.omitResponse + 1 ∧
     (sampleManager.receive sampleUnknownResp).1.statistics.emitResponse =
       sampleManager.statistics.emitResponse ∧
     (sampleManager.receive sampleUnknownResp).1.tasks = sampleManager.tasks) ∧
    (((sampleManager.storeTask "2.2.2.2:9000-7"
        (TaskContext.metaData (newMetaDataTaskContext "2.2.2.2:9000-7"
          .RootTask "" "" 1))).receive sampleUnknownResp).2 = none ∧
     ((sampleManager.storeTask "2.2.2.2:9000-7"
        (TaskContext.metaData (newMetaDataTaskContext "2.2.2.2:9000-7"
          .RootTask "" "" 1))).receive sampleUnknownResp).1.statistics.emitResponse =
       (sampleManager.storeTask "2.2.2.2:9000-7"
        (TaskContext.metaData (newMetaDataTaskContext "2.2.2.2:9000-7"
          .RootTask "" "" 1))).statistics.emitResponse + 1) :=
  ⟨by
    have h := (receive_routes_by_task_table sampleManager sampleUnknownResp).1
      (by decide)
    exact ⟨h.1, h.2.1, h.2.2.1, h.2.2.2⟩,
   by
    have h := (receive_routes_by_task_table (sampleManager.storeTask
      "2.2.2.2:9000-7" (TaskContext.metaData (newMetaDataTaskContext
        "2.2.2.2:9000-7" .RootTask "" "" 1))) sampleUnknownResp).2 (by decide)
    exact ⟨h.1, h.2.1⟩⟩

/-- Fold of the ack context `WriteResponse` over a list of responses. -/
def IntermediateAckTaskContext.run (c : IntermediateAckTaskContext)
    (readerReady : Bool) :
    List TaskResponse → IntermediateAckTaskContext × List AckChanAct
  | [] => (c, [])
  | resp :: rest =>
    let r := c.writeResponse resp readerReady
    let r2 := r.1.run readerReady rest
    (r2.1, r.2 ++ r2.2)

/-- Fold of the metadata context `WriteResponse` over a list of responses. -/
def MetaDataTaskContext.run (c : MetaDataTaskContext) (readerReady : Bool) :
    List TaskResponse → MetaDataTaskContext × List MetaChanAct
  | [] => (c, [])
  | resp :: rest =>
    let r := c.writeResponse resp readerReady
    let r2 := r.1.run readerReady rest
    (r2.1, r.2 ++ r2.2)

/-- Number of channel-close actions in an ack trace. -/
def ackCloses (l : List AckChanAct) : Nat :=
  (l.filter (fun a => match a with | .close => true | _ => false)).length

/-- Number of channel-close actions in a metric trace. -/
def metricCloses (l : List MetricChanAct) : Nat :=
  (l.filter (fun a => match a with | .close => true | _ => false)).length

/-- Number of channel-close actions in a metadata trace. -/
def metaCloses (l : List MetaChanAct) : Nat :=
  (l.filter (fun a => match a with | .close => true | _ => false)).length

theorem ackCloses_append (l1 l2 : List AckChanAct) :
    ackCloses (l1 ++ l2) = ackCloses l1 + ackCloses l2 := by
  simp [ackCloses, List.filter_append]

theorem metricCloses_append (l1 l2 : List MetricChanAct) :
    metricCloses (l1 ++ l2) = metricCloses l1 + metricCloses l2 := by
  simp [metricCloses, List.filter_append]

theorem metaCloses_append (l1 l2 : List MetaChanAct) :
    metaCloses (l1 ++ l2) = metaCloses l1 + metaCloses l2 := by
  simp [metaCloses, List.filter_append]

/-- Full characterization of the series-aggregation loop: it never fails, and
it feeds exactly the series before the first empty-`Fields` one (all of them
when none is empty) to the grouping aggregator. -/
theorem aggregateSeries_spec (l : List TimeSeries) (c : MetricTaskContext) :
    c.aggregateSeries l =
      ({ c with groupAgg := c.groupAgg.map (fun g => { g with
          aggregated := g.aggregated ++
            ((l.takeWhile (fun ts => ts.fields.length != 0)).map
              (fun ts => { tags := ts.tags, fields := ts.fields })) }) },
       none) := by
  induction l generalizing c with
  | nil =>
    rcases c with ⟨tid, tty, pid, pn, er, cl, sq, asp, ga, st, tnf, stt⟩
    cases ga <;> simp [MetricTaskContext.aggregateSeries]
  | cons ts rest ih =>
    by_cases hf : ts.fields.length = 0
    · rcases c with ⟨tid, tty, pid, pn, er, cl, sq, asp, ga, st, tnf, stt⟩
      cases ga <;>
        simp [MetricTaskContext.aggregateSeries, hf, List.takeWhile_cons]
    · rw [show c.aggregateSeries (ts :: rest) =
        MetricTaskContext.aggregateSeries { c with groupAgg := (c.groupAgg.map
          (fun g => g.aggregate { tags := ts.tags, fields := ts.fields })) } rest by
          simp [MetricTaskContext.aggregateSeries, hf]]
      rw [ih]
      rcases c with ⟨tid, tty, pid, pn, er, cl, sq, asp, ga, st, tnf, stt⟩
      cases ga <;>
        simp [List.takeWhile_cons, hf, GroupingAggregator.aggregate]

/-- The stats merge touches only the `stats` field of the context. -/
theorem handleStats_shape (c : MetricTaskContext) (resp : TaskResponse)
    (node : String) :
    ∃ st, c.handleStats resp node = { c with stats := st } := by
  unfold MetricTaskContext.handleStats
  by_cases h : resp.stats.length = 0
  · rw [if_pos h]
    exact ⟨c.stats, rfl⟩
  · rw [if_neg h]
    cases resp.type <;> exact ⟨_, rfl⟩

/-- Empty `ErrMsg` passes the error check unchanged. -/
theorem checkError_empty (c : MetricTaskContext) :
    c.checkError "" = (c, false, none) := by
  unfold MetricTaskContext.checkError
  rw [if_pos rfl]

/-- An error message without the `"not found"` substring is surfaced
immediately. -/
theorem checkError_real (c : MetricTaskContext) (errMsg : String)
    (h1 : errMsg ≠ "") (h2 : goContains errMsg "not found" = false) :
    c.checkError errMsg = (c, true, some (.msg errMsg)) := by
  unfold MetricTaskContext.checkError
  rw [if_neg h1, if_pos (by simp [h2])]

/-- A `"not found"` message while tolerance stays positive is ignored. -/
theorem checkError_notFound_pos (c : MetricTaskContext) (errMsg : String)
    (h1 : errMsg ≠ "") (h2 : goContains errMsg "not found" = true)
    (h3 : c.tolerantNotFounds - 1 > 0) :
    c.checkError errMsg =
      ({ c with tolerantNotFounds := c.tolerantNotFounds - 1 }, true, none) := by
  unfold MetricTaskContext.checkError
  rw [if_neg h1, if_neg (by simp [h2])]
  exact if_pos h3

/-- The `"not found"` message that exhausts the tolerance is surfaced. -/
theorem checkError_notFound_zero (c : MetricTaskContext) (errMsg : String)
    (h1 : errMsg ≠ "") (h2 : goContains errMsg "not found" = true)
    (h3 : ¬ c.tolerantNotFounds - 1 > 0) :
    c.checkError errMsg =
      ({ c with tolerantNotFounds := c.tolerantNotFounds - 1 }, true,
       some (.msg errMsg)) := by
  unfold MetricTaskContext.checkError
  rw [if_neg h1, if_neg (by simp [h2])]
  exact if_neg h3

/-- The error check touches only `tolerantNotFounds`. -/
theorem checkError_shape (c : MetricTaskContext) (errMsg : String) :
    ∃ tf b e, c.checkError errMsg = ({ c with tolerantNotFounds := tf }, b, e) := by
  by_cases h1 : errMsg = ""
  · subst h1
    exact ⟨c.tolerantNotFounds, _, _, checkError_empty c⟩
  · by_cases h2 : goContains errMsg "not found" = true
    · by_cases h3 : c.tolerantNotFounds - 1 > 0
      · exact ⟨_, _, _, checkError_notFound_pos c errMsg h1 h2 h3⟩
      · exact ⟨_, _, _, checkError_notFound_zero c errMsg h1 h2 h3⟩
    · exact ⟨_, _, _, checkError_real c errMsg h1 (by simpa using h2)⟩

/-- Response handling touches only `stats`, `tolerantNotFounds`,
`aggregatorSpecs` and `groupAgg`; in particular it never changes
`expectResults` or `closed`. -/
theorem handleTaskResponse_shape (c : MetricTaskContext) (resp : TaskResponse)
    (node : String) :
    ∃ st tf sp ga e, c.handleTaskResponse resp node =
      ({ c with
          stats := st, tolerantNotFounds := tf,
          aggregatorSpecs := sp, groupAgg := ga }, e) := by
  obtain ⟨st, hst⟩ := handleStats_shape c resp node
  obtain ⟨tf, b, e, hce⟩ := checkError_shape { c with stats := st } resp.errMsg
  simp only [MetricTaskContext.handleTaskResponse, hst, hce]
  cases e with
  | some e1 => exact ⟨st, tf, _, _, _, rfl⟩
  | none =>
    cases b with
    | true => exact ⟨st, tf, _, _, _, rfl⟩
    | false =>
      rcases hp : resp.payload with _ | tsl
      · exact ⟨st, tf, _, _, _, rfl⟩
      · simp only []
        by_cases hl : tsl.fieldAggSpecs.length = 0
        · exact ⟨st, tf, _, _, _, by rw [if_pos hl]; rfl⟩
        · rw [if_neg hl]
          cases hg : c.groupAgg <;> simp only [] <;>
            rw [aggregateSeries_spec] <;> exact ⟨st, tf, _, _, _, rfl⟩

theorem handleTaskResponse_preserves (c : MetricTaskContext)
    (resp : TaskResponse) (node : String) :
    (c.handleTaskResponse resp node).1.expectResults = c.expectResults ∧
    (c.handleTaskResponse resp node).1.closed = c.closed := by
  obtain ⟨st, tf, sp, ga, e, h⟩ := handleTaskResponse_shape c resp node
  rw [h]
  exact ⟨rfl, rfl⟩

/-- Once `closed` is set, a metric `WriteResponse` only decrements the
counter and performs no channel action. -/
theorem metricWrite_closed (c : MetricTaskContext) (resp : TaskResponse)
    (node : String) (rr : Bool) (h : c.closed = true) :
    c.writeResponse resp node rr =
      ({ c with expectResults := c.expectResults - 1 }, []) := by
  simp [MetricTaskContext.writeResponse, h]

/-- Once `closed` is set, an ack `WriteResponse` only decrements the counter
and performs no channel action. -/
theorem ackWrite_closed (c : IntermediateAckTaskContext) (resp : TaskResponse)
    (rr : Bool) (h : c.closed = true) :
    c.writeResponse resp rr =
      ({ c with expectResults := c.expectResults - 1 }, []) := by
  simp [IntermediateAckTaskContext.writeResponse, h]

/-- Once `closed` is set, a metadata `WriteResponse` only decrements the
counter and performs no channel action. -/
theorem metaWrite_closed (c : MetaDataTaskContext) (resp : TaskResponse)
    (rr : Bool) (h : c.closed = true) :
    c.writeResponse resp rr =
      ({ c with expectResults := c.expectResults - 1 }, []) := by
  simp [MetaDataTaskContext.writeResponse, h]

/-- Per-call accounting for the metric context: the counter drops by one; a
closed context drops the response; an open context emits a close action
exactly when the call sets `closed`. -/
theorem metricWrite_step (c : MetricTaskContext) (resp : TaskResponse)
    (node : String) (rr : Bool) :
    (c.writeResponse resp node rr).1.expectResults = c.expectResults - 1 ∧
    (c.closed = true → (c.writeResponse resp node rr).2 = [] ∧
      (c.writeResponse resp node rr).1.closed = true) ∧
    (c.closed = false → metricCloses (c.writeResponse resp node rr).2 =
      (if (c.writeResponse resp node rr).1.closed = true then 1 else 0)) := by
  by_cases hcl : c.closed = true
  · rw [metricWrite_closed c resp node rr hcl]
    exact ⟨rfl, fun _ => ⟨rfl, hcl⟩, fun hf => by rw [hcl] at hf; cases hf⟩
  · have hcl' : c.closed = false := by simpa using hcl
    obtain ⟨st, tf, sp, ga, e, hh⟩ := handleTaskResponse_shape
      { c with expectResults := c.expectResults - 1 } resp node
    refine ⟨?_, fun ht => absurd ht hcl, fun _ => ?_⟩ <;>
      (simp only [MetricTaskContext.writeResponse, hh,
         MetricTaskContext.deferClose];
       clear hh;
       cases e <;> cases st <;> simp only [hcl'] <;>
         split_ifs <;> simp_all [metricCloses])

/-- Per-call accounting for the ack context. -/
theorem ackWrite_step (c : IntermediateAckTaskContext) (resp : TaskResponse)
    (rr : Bool) :
    (c.writeResponse resp rr).1.expectResults = c.expectResults - 1 ∧
    (c.closed = true → (c.writeResponse resp rr).2 = [] ∧
      (c.writeResponse resp rr).1.closed = true) ∧
    (c.closed = false → ackCloses (c.writeResponse resp rr).2 =
      (if (c.writeResponse resp rr).1.closed = true then 1 else 0)) := by
  by_cases hcl : c.closed = true
  · rw [ackWrite_closed c resp rr hcl]
    exact ⟨rfl, fun _ => ⟨rfl, hcl⟩, fun hf => by rw [hcl] at hf; cases hf⟩
  · have hcl' : c.closed = false := by simpa using hcl
    refine ⟨?_, fun ht => absurd ht hcl, fun _ => ?_⟩ <;>
      (simp only [IntermediateAckTaskContext.writeResponse, hcl'] <;>
        split_ifs <;> simp_all [ackCloses])

/-- Per-call accounting for the metadata context. -/
theorem metaWrite_step (c : MetaDataTaskContext) (resp : TaskResponse)
    (rr : Bool) :
    (c.writeResponse resp rr).1.expectResults = c.expectResults - 1 ∧
    (c.closed = true → (c.writeResponse resp rr).2 = [] ∧
      (c.writeResponse resp rr).1.closed = true) ∧
    (c.closed = false → metaCloses (c.writeResponse resp rr).2 =
      (if (c.writeResponse resp rr).1.closed = true then 1 else 0)) := by
  by_cases hcl : c.closed = true
  · rw [metaWrite_closed c resp rr hcl]
    exact ⟨rfl, fun _ => ⟨rfl, hcl⟩, fun hf => by rw [hcl] at hf; cases hf⟩
  · have hcl' : c.closed = false := by simpa using hcl
    refine ⟨?_, fun ht => absurd ht hcl, fun _ => ?_⟩ <;>
      (simp only [MetaDataTaskContext.writeResponse, hcl'] <;>
        split_ifs <;> simp_all [metaCloses])

/-- The `closed` flag is monotone across an ack run. -/
theorem ackRun_closed_mono (rr : Bool) (l : List TaskResponse)
    (c : IntermediateAckTaskContext) (h : c.closed = true) :
    (c.run rr l).1.closed = true := by
  induction l generalizing c with
  | nil => exact h
  | cons resp rest ih =>
    show ((c.writeResponse resp rr).1.run rr rest).1.closed = true
    exact ih _ ((ackWrite_step c resp rr).2.1 h).2

/-- The `closed` flag is monotone across a metric run. -/
theorem metricRun_closed_mono (rr : Bool) (l : List (TaskResponse × String))
    (c : MetricTaskContext) (h : c.closed = true) :
    (c.run rr l).1.closed = true := by
  induction l generalizing c with
  | nil => exact h
  | cons p rest ih =>
    show ((c.writeResponse p.1 p.2 rr).1.run rr rest).1.closed = true
    exact ih _ ((metricWrite_step c p.1 p.2 rr).2.1 h).2

/-- The `closed` flag is monotone across a metadata run. -/
theorem metaRun_closed_mono (rr : Bool) (l : List TaskResponse)
    (c : MetaDataTaskContext) (h : c.closed = true) :
    (c.run rr l).1.closed = true := by
  induction l generalizing c with
  | nil => exact h
  | cons resp rest ih =>
    show ((c.writeResponse resp rr).1.run rr rest).1.closed = true
    exact ih _ ((metaWrite_step c resp rr).2.1 h).2

/-- Exact count of close actions over an ack run. -/
theorem ackRun_closes (rr : Bool) (l : List TaskResponse)
    (c : IntermediateAckTaskContext) :
    ackCloses (c.run rr l).2 =
      (if c.closed = false ∧ (c.run rr l).1.closed = true then 1 else 0) := by
  induction l generalizing c with
  | nil => cases hc : c.closed <;> simp [IntermediateAckTaskContext.run, ackCloses, hc]
  | cons resp rest ih =>
    simp only [IntermediateAckTaskContext.run]
    rw [ackCloses_append, ih]
    by_cases hc : c.closed = true
    · rw [((ackWrite_step c resp rr).2.1 hc).1]
      have hm := ackRun_closed_mono rr rest _ ((ackWrite_step c resp rr).2.1 hc).2
      simp [ackCloses, hc, ((ackWrite_step c resp rr).2.1 hc).2, hm]
    · have hc' : c.closed = false := by simpa using hc
      rw [(ackWrite_step c resp rr).2.2 hc']
      by_cases h1 : (c.writeResponse resp rr).1.closed = true
      · have hm := ackRun_closed_mono rr rest _ h1
        simp [h1, hm, hc']
      · have h1' : (c.writeResponse resp rr).1.closed = false := by simpa using h1
        simp [h1', hc']

/-- Exact count of close actions over a metric run. -/
theorem metricRun_closes (rr : Bool) (l : List (TaskResponse × String))
    (c : MetricTaskContext) :
    metricCloses (c.run rr l).2 =
      (if c.closed = false ∧ (c.run rr l).1.closed = true then 1 else 0) := by
  induction l generalizing c with
  | nil => cases hc : c.closed <;> simp [MetricTaskContext.run, metricCloses, hc]
  | cons p rest ih =>
    simp only [MetricTaskContext.run]
    rw [metricCloses_append, ih]
    by_cases hc : c.closed = true
    · rw [((metricWrite_step c p.1 p.2 rr).2.1 hc).1]
      have hm := metricRun_closed_mono rr rest _ ((metricWrite_step c p.1 p.2 rr).2.1 hc).2
      simp [metricCloses, hc, ((metricWrite_step c p.1 p.2 rr).2.1 hc).2, hm]
    · have hc' : c.closed = false := by simpa using hc
      rw [(metricWrite_step c p.1 p.2 rr).2.2 hc']
      by_cases h1 : (c.writeResponse p.1 p.2 rr).1.closed = true
      · have hm := metricRun_closed_mono rr rest _ h1
        simp [h1, hm, hc']
      · have h1' : (c.writeResponse p.1 p.2 rr).1.closed = false := by simpa using h1
        simp [h1', hc']

/-- Exact count of close actions over a metadata run. -/
theorem metaRun_closes (rr : Bool) (l : List TaskResponse)
    (c : MetaDataTaskContext) :
    metaCloses (c.run rr l).2 =
      (if c.closed = false ∧ (c.run rr l).1.closed = true then 1 else 0) := by
  induction l generalizing c with
  | nil => cases hc : c.closed <;> simp [MetaDataTaskContext.run, metaCloses, hc]
  | cons resp rest ih =>
    simp only [MetaDataTaskContext.run]
    rw [metaCloses_append, ih]
    by_cases hc : c.closed = true
    · rw [((metaWrite_step c resp rr).2.1 hc).1]
      have hm := metaRun_closed_mono rr rest _ ((metaWrite_step c resp rr).2.1 hc).2
      simp [metaCloses, hc, ((metaWrite_step c resp rr).2.1 hc).2, hm]
    · have hc' : c.closed = false := by simpa using hc
      rw [(metaWrite_step c resp rr).2.2 hc']
      by_cases h1 : (c.writeResponse resp rr).1.closed = true
      · have hm := metaRun_closed_mono rr rest _ h1
        simp [h1, hm, hc']
      · have h1' : (c.writeResponse resp rr).1.closed = false := by simpa using h1
        simp [h1', hc']

/-- C5: for each `TaskContext` variant (intermediateAck, metric, metaData)
every `WriteResponse` call decreases `expectResults` by exactly one (and no
operation increases it); once the `closed` flag is set, a further
`WriteResponse` returns without sending on or closing the channel; hence
over any sequence of responses the event channel is closed at most once. -/
theorem writeResponse_decrements_and_closes_at_most_once :
    (∀ (c : IntermediateAckTaskContext) (resp : TaskResponse) (rr : Bool),
       (c.writeResponse resp rr).1.expectResults = c.expectResults - 1 ∧
       (c.closed = true → (c.writeResponse resp rr).2 = [] ∧
         (c.writeResponse resp rr).1.closed = true)) ∧
    (∀ (c : MetricTaskContext) (resp : TaskResponse) (node : String) (rr : Bool),
       (c.writeResponse resp node rr).1.expectResults = c.expectResults - 1 ∧
       (c.closed = true → (c.writeResponse resp node rr).2 = [] ∧
         (c.writeResponse resp node rr).1.closed = true)) ∧
    (∀ (c : MetaDataTaskContext) (resp : TaskResponse) (rr : Bool),
       (c.writeResponse resp rr).1.expectResults = c.expectResults - 1 ∧
       (c.closed = true → (c.writeResponse resp rr).2 = [] ∧
         (c.writeResponse resp rr).1.closed = true)) ∧
    (∀ (c : IntermediateAckTaskContext) (rr : Bool) (l : List TaskResponse),
       ackCloses (c.run rr l).2 ≤ 1) ∧
    (∀ (c : MetricTaskContext) (rr : Bool) (l : List (TaskResponse × String)),
       metricCloses (c.run rr l).2 ≤ 1) ∧
    (∀ (c : MetaDataTaskContext) (rr : Bool) (l : List TaskResponse),
       metaCloses (c.run rr l).2 ≤ 1) := by
  refine ⟨fun c resp rr =>
      ⟨(ackWrite_step c resp rr).1, (ackWrite_step c resp rr).2.1⟩,
    fun c resp node rr =>
      ⟨(metricWrite_step c resp node rr).1, (metricWrite_step c resp node rr).2.1⟩,
    fun c resp rr =>
      ⟨(metaWrite_step c resp rr).1, (metaWrite_step c resp rr).2.1⟩,
    fun c rr l => ?_, fun c rr l => ?_, fun c rr l => ?_⟩
  · rw [ackRun_closes]
    split_ifs <;> omega
  · rw [metricRun_closes]
    split_ifs <;> omega
  · rw [metaRun_closes]
    split_ifs <;> omega

/-- A metric context whose channel has already been closed, for the C5
witness. -/
def closedMetricSample : MetricTaskContext :=
  { newMetricTaskContext "t0" .RootTask "" "" sampleQuery 2 with closed := true }

/-- Witness for C5 at concrete inputs: a closed metric context drops the
response without channel actions while still decrementing; and a concrete
three-response run on a fresh context with `expectResults = 2` closes its
channel at most once. -/
theorem writeResponse_decrements_and_closes_at_most_once_witness :
    ((closedMetricSample.writeResponse sampleUnknownResp "n" true).2 = [] ∧
     (closedMetricSample.writeResponse sampleUnknownResp "n" true).1.expectResults =
       closedMetricSample.expectResults - 1) ∧
    metricCloses (((newMetricTaskContext "t0" .RootTask "" "" sampleQuery 2).run true
      [(sampleUnknownResp, "a"), (sampleUnknownResp, "b"),
       (sampleUnknownResp, "c")]).2) ≤ 1 :=
  ⟨⟨((writeResponse_decrements_and_closes_at_most_once.2.1
        closedMetricSample sampleUnknownResp "n" true).2 rfl).1,
    (writeResponse_decrements_and_closes_at_most_once.2.1
        closedMetricSample sampleUnknownResp "n" true).1⟩,
   writeResponse_decrements_and_closes_at_most_once.2.2.2.2.1
     (newMetricTaskContext "t0" .RootTask "" "" sampleQuery 2) true
     [(sampleUnknownResp, "a"), (sampleUnknownResp, "b"),
      (sampleUnknownResp, "c")]⟩

/-- C8 counterexample: a fresh metadata context with `expectResults = 1`
receiving a response while no reader is blocked on the channel drops the
response (allowed by the claim) but also leaves the channel open even though
`expectResults` has reached zero — the close lives inside the
successful-send branch of the `select`, so the claim's unconditional
"closes the channel when `expectResults ≤ 0`" fails. -/
theorem metaWrite_close_counterexample :
    ((newMetaDataTaskContext "t0" .RootTask "" "" 1).writeResponse
        sampleUnknownResp false).1.expectResults ≤ 0 ∧
    ((newMetaDataTaskContext "t0" .RootTask "" "" 1).writeResponse
        sampleUnknownResp false).1.closed = false ∧
    ((newMetaDataTaskContext "t0" .RootTask "" "" 1).writeResponse
        sampleUnknownResp false).2 = [] := by
  refine ⟨by decide, rfl, rfl⟩

/-- C8 amended: an open metadata context forwards each response one-for-one
through the non-blocking send; when a reader is present the response is
delivered and the channel is closed exactly when `expectResults` has reached
zero; when no reader is present the response is dropped and the channel is
left open (even if `expectResults ≤ 0`). -/
theorem metaWrite_forwarding (c : MetaDataTaskContext) (resp : TaskResponse)
    (rr : Bool) (h : c.closed = false) :
    (rr = true → c.writeResponse resp rr =
       (if c.expectResults - 1 ≤ 0
        then ({ c with expectResults := c.expectResults - 1, closed := true },
              [.send resp, .close])
        else ({ c with expectResults := c.expectResults - 1 }, [.send resp]))) ∧
    (rr = false → c.writeResponse resp rr =
       ({ c with expectResults := c.expectResults - 1 }, [])) := by
  constructor <;> rintro rfl <;>
    simp only [MetaDataTaskContext.writeResponse, h, Bool.false_eq_true,
      if_false, if_true] <;>
    split_ifs <;> simp_all

/-- Witness for C8 amended at a concrete open context with two outstanding
responses and a blocked reader: the response is forwarded without closing. -/
theorem metaWrite_forwarding_witness :
    (newMetaDataTaskContext "t0" .RootTask "" "" 2).writeResponse
        sampleUnknownResp true =
      ({ newMetaDataTaskContext "t0" .RootTask "" "" 2 with expectResults := 1 },
       [.send sampleUnknownResp]) := by
  have h := (metaWrite_forwarding (newMetaDataTaskContext "t0" .RootTask "" "" 2)
    sampleUnknownResp true rfl).1 rfl
  rw [h]
  decide

/-- A response carrying a non-not-found error message, for the C4
development. -/
def errRespSample : TaskResponse :=
  { taskID := "t1", type := .leaf, errMsg := "boom",
    payload := none, payloadLen := 0, stats := [] }

/-- C4 counterexample: on a fresh metric context expecting 3 responses, the
first response carries a real error; the error event is emitted but the
channel is NOT closed (the deferred close fires only at
`expectResults ≤ 0`), refuting "the event channel is closed ... regardless
of how many expected responses are still outstanding". -/
theorem metric_error_no_close_counterexample :
    ((newMetricTaskContext "t1" .RootTask "" "" sampleQuery 3).writeResponse
        errRespSample "n1" true).2 =
      [MetricChanAct.send { err := some (.msg "boom"), stats := none }] ∧
    ((newMetricTaskContext "t1" .RootTask "" "" sampleQuery 3).writeResponse
        errRespSample "n1" true).1.closed = false := by
  refine ⟨by decide, by decide⟩

/-- C4 amended: whenever `handleTaskResponse` yields a non-nil error and a
reader is blocked on the channel, the context emits a `TimeSeriesEvent`
carrying that error (with the merged stats); the channel is closed by the
deferred closure only when this response brings `expectResults` to (or
below) zero — with responses still outstanding the channel stays open. -/
theorem metricWrite_err_eq (c : MetricTaskContext) (resp : TaskResponse)
    (node : String) (e : TaskErr) (C : MetricTaskContext)
    (hcl : c.closed = false)
    (hh : MetricTaskContext.handleTaskResponse
      { c with expectResults := c.expectResults - 1 } resp node = (C, some e)) :
    c.writeResponse resp node true =
      (if c.expectResults - 1 ≤ 0
       then ({ C with closed := true },
             [.send { err := some e, stats := C.stats }, .close])
       else (C, [.send { err := some e, stats := C.stats }])) := by
  have hC : C.expectResults = c.expectResults - 1 := by
    have h2 := (handleTaskResponse_preserves
      { c with expectResults := c.expectResults - 1 } resp node).1
    rw [hh] at h2
    simpa using h2
  simp only [MetricTaskContext.writeResponse, hh, MetricTaskContext.deferClose,
    hcl, hC]
  split_ifs <;> simp_all

theorem metric_error_event_spec (c : MetricTaskContext) (resp : TaskResponse)
    (node : String) (e : TaskErr) (C : MetricTaskContext)
    (hcl : c.closed = false)
    (hh : MetricTaskContext.handleTaskResponse
      { c with expectResults := c.expectResults - 1 } resp node = (C, some e)) :
    c.writeResponse resp node true =
      (if c.expectResults - 1 ≤ 0
       then ({ C with closed := true },
             [.send { err := some e, stats := C.stats }, .close])
       else (C, [.send { err := some e, stats := C.stats }])) :=
  metricWrite_err_eq c resp node e C hcl hh

/-- Witness for C4 amended at the counterexample input: the concrete error
response on a fresh 3-expectation context yields exactly one send action and
no close. -/
theorem metric_error_event_spec_witness :
    (newMetricTaskContext "t1" .RootTask "" "" sampleQuery 3).writeResponse
        errRespSample "n1" true =
      ({ newMetricTaskContext "t1" .RootTask "" "" sampleQuery 3 with
          expectResults := 2 },
       [.send { err := some (.msg "boom"), stats := none }]) := by
  have h := metric_error_event_spec
    (newMetricTaskContext "t1" .RootTask "" "" sampleQuery 3) errRespSample "n1"
    (.msg "boom")
    { newMetricTaskContext "t1" .RootTask "" "" sampleQuery 3 with
        expectResults := 2 }
    rfl (by decide)
  rw [h]
  decide

/-- A data response whose decoded list has a normal series followed by a
series with empty `Fields`, for the C7 development. -/
def mixedRespSample : TaskResponse :=
  { taskID := "t1", type := .leaf, errMsg := "",
    payload := some
      { timeSeriesList :=
          [{ tags := [("host", "a")], fields := [("f", [1])] },
           { tags := [("host", "b")], fields := [] }],
        fieldAggSpecs := [{ fieldName := "f", fieldType := 1,
                            funcTypeList := [0] }] },
    payloadLen := 3, stats := [] }

/-- C7 counterexample: on the mixed response, `handleTaskResponse` returns
`nil` as claimed, but the response does NOT "contribute nothing to the
grouping aggregator": the series preceding the empty-`Fields` one has been
aggregated (the aggregator records one `Aggregate` call), and the field agg
specs were registered. -/
theorem empty_fields_contributes_counterexample :
    ((newMetricTaskContext "t1" .RootTask "" "" sampleQuery 2).handleTaskResponse
        mixedRespSample "n1").2 = none ∧
    (((newMetricTaskContext "t1" .RootTask "" "" sampleQuery 2).handleTaskResponse
        mixedRespSample "n1").1.groupAgg.map (fun g => g.aggregated)) =
      some [{ tags := [("host", "a")], fields := [("f", [1])] }] := by
  refine ⟨by decide, by decide⟩

/-- The state of the grouping aggregator after a data response decoding to
`tsl` is handled: the existing aggregator (or, when absent, a fresh one built
from the response field agg specs) extended by the series before the first
empty-`Fields` one. -/
def aggAfter (c : MetricTaskContext) (tsl : TimeSeriesList) :
    GroupingAggregator :=
  let g0 := match c.groupAgg with
    | some g => g
    | none => newGroupingAgg c.stmtQuery.interval 1 c.stmtQuery.timeRange
        (newAggregatorSpecs tsl.fieldAggSpecs)
  { g0 with aggregated := g0.aggregated ++
      ((tsl.timeSeriesList.takeWhile (fun ts => ts.fields.length != 0)).map
        (fun ts => { tags := ts.tags, fields := ts.fields })) }

theorem takeWhile_nonempty_fields_lt {l : List TimeSeries}
    (h : ∃ ts ∈ l, ts.fields.length = 0) :
    (l.takeWhile (fun ts => ts.fields.length != 0)).length < l.length := by
  induction l with
  | nil => simp at h
  | cons a t ih =>
    rcases h with ⟨ts, hmem, hts⟩
    rcases List.mem_cons.mp hmem with rfl | hmem2
    · simp [List.takeWhile_cons, hts]
    · by_cases ha : a.fields.length = 0
      · simp [List.takeWhile_cons, ha]
      · simp only [List.takeWhile_cons, ha]
        simp [ha]
        exact ih ⟨ts, hmem2, hts⟩

/-- C7 amended: when a decoded data response (empty `ErrMsg`, non-empty
`FieldAggSpecs`) contains a series with empty `Fields`,
`handleTaskResponse` returns without error and without completing the task
on its own, but the response is not entirely ignored: its field agg specs
are registered, and every series strictly before the first empty-`Fields`
one is fed to the grouping aggregator; only the remainder of the series list
(a strict suffix) is skipped. -/
theorem handle_partial_aggregation (c : MetricTaskContext)
    (resp : TaskResponse) (node : String) (tsl : TimeSeriesList)
    (hemsg : resp.errMsg = "") (hp : resp.payload = some tsl)
    (hspec : ¬ tsl.fieldAggSpecs.length = 0)
    (hempty : ∃ ts ∈ tsl.timeSeriesList, ts.fields.length = 0) :
    (c.handleTaskResponse resp node).2 = none ∧
    (c.handleTaskResponse resp node).1.aggregatorSpecs =
      tsl.fieldAggSpecs.foldl insertSpec c.aggregatorSpecs ∧
    (c.handleTaskResponse resp node).1.groupAgg = some (aggAfter c tsl) ∧
    (tsl.timeSeriesList.takeWhile (fun ts => ts.fields.length != 0)).length <
      tsl.timeSeriesList.length := by
  refine ⟨?_, ?_, ?_, takeWhile_nonempty_fields_lt hempty⟩ <;>
  · obtain ⟨st, hst⟩ := handleStats_shape c resp node
    simp only [MetricTaskContext.handleTaskResponse, hst, hemsg,
      checkError_empty, hp]
    simp only [Bool.false_eq_true, if_false]
    rw [if_neg hspec]
    cases hg : c.groupAgg <;> simp only [] <;> rw [aggregateSeries_spec] <;>
      simp [aggAfter, hg, newGroupingAgg]

/-- Witness for C7 amended at the mixed concrete response: the aggregator
state equals the fresh aggregator fed with exactly the one series that
precedes the empty-`Fields` series. -/
theorem handle_partial_aggregation_witness :
    ((newMetricTaskContext "t1" .RootTask "" "" sampleQuery 2).handleTaskResponse
        mixedRespSample "n1").1.groupAgg =
      some (aggAfter (newMetricTaskContext "t1" .RootTask "" "" sampleQuery 2)
        { timeSeriesList :=
            [{ tags := [("host", "a")], fields := [("f", [1])] },
             { tags := [("host", "b")], fields := [] }],
          fieldAggSpecs := [{ fieldName := "f", fieldType := 1,
                              funcTypeList := [0] }] }) :=
  (handle_partial_aggregation
    (newMetricTaskContext "t1" .RootTask "" "" sampleQuery 2) mixedRespSample
    "n1" _ rfl rfl (by decide) (by decide)).2.2.1

/-- Sending requests updates only statistics, never the task table or the
sequence or the node id. -/
theorem sendRequest_preserves (t : TaskManager) (env : SubmitEnv)
    (target : String) :
    (t.sendRequest env target).1.tasks = t.tasks ∧
    (t.sendRequest env target).1.seq = t.seq ∧
    (t.sendRequest env target).1.currentNodeID = t.currentNodeID := by
  unfold TaskManager.sendRequest
  cases env.sendErr target <;> exact ⟨rfl, rfl, rfl⟩

/-- A fanout updates only statistics; its error slot is empty exactly when
every send succeeded; its trace consists of send actions of the given
request type. -/
theorem fanout_spec (env : SubmitEnv) (rt : ReqType) (parent : String)
    (l : List PlanNode) (t : TaskManager) :
    (t.fanout env rt parent l).1.tasks = t.tasks ∧
    ((t.fanout env rt parent l).2.2 = none ↔
      ∀ n ∈ l, env.sendErr n.indicator = none) ∧
    (∀ a ∈ (t.fanout env rt parent l).2.1,
      ∃ target, a = TMAct.sendRequest target rt parent) := by
  induction l generalizing t with
  | nil => simp [TaskManager.fanout]
  | cons n rest ih =>
    obtain ⟨ht, herr, hacts⟩ := ih (t.sendRequest env n.indicator).1
    refine ⟨?_, ?_, ?_⟩
    · show (TaskManager.fanout _ env rt parent rest).1.tasks = t.tasks
      rw [ht, (sendRequest_preserves t env n.indicator).1]
    · show (match (TaskManager.fanout _ env rt parent rest).2.2 with
        | some e => some e
        | none => (t.sendRequest env n.indicator).2) = none ↔ _
      cases hfe : (TaskManager.fanout _ env rt parent rest).2.2 with
      | some e =>
        simp only [hfe]
        constructor
        · intro h; cases h
        · intro hall
          have : ∀ m ∈ rest, env.sendErr m.indicator = none :=
            fun m hm => hall m (List.mem_cons_of_mem n hm)
          rw [(herr.mpr this)] at hfe
          cases hfe
      | none =>
        simp only [hfe]
        have hrest := herr.mp hfe
        constructor
        · intro h
          intro m hm
          rcases List.mem_cons.mp hm with rfl | hm2
          · unfold TaskManager.sendRequest at h
            cases he : env.sendErr m.indicator with
            | none => rfl
            | some e2 => rw [he] at h; cases h
          · exact hrest m hm2
        · intro hall
          have := hall n (List.mem_cons_self n rest)
          unfold TaskManager.sendRequest
          rw [this]
    · intro a ha
      rcases List.mem_cons.mp ha with rfl | ha2
      · exact ⟨n.indicator, rfl⟩
      · exact hacts a ha2

/-- Looking a task id up right after storing it yields the stored context. -/
theorem taskGet_storeTask_self (t : TaskManager) (id : String)
    (ctx : TaskContext) : (t.storeTask id ctx).taskGet id = some ctx := by
  unfold TaskManager.storeTask TaskManager.taskGet
  rw [List.find?_append]
  have hnone : List.find? (fun kv => kv.1 == id)
      (t.tasks.filter (fun kv => kv.1 != id)) = none := by
    rw [List.find?_eq_none]
    intro kv hkv
    have := (List.mem_filter.mp hkv).2
    simpa using this
  rw [hnone]
  simp

/-- Evicting a task id removes it from the table. -/
theorem taskGet_evictTask_self (t : TaskManager) (id : String) :
    (t.evictTask id).taskGet id = none := by
  unfold TaskManager.evictTask
  by_cases h : (t.taskGet id).isSome
  · rw [if_pos h]
    unfold TaskManager.taskGet
    have hnone : List.find? (fun kv => kv.1 == id)
        (t.tasks.filter (fun kv => kv.1 != id)) = none := by
      rw [List.find?_eq_none]
      intro kv hkv
      have := (List.mem_filter.mp hkv).2
      simpa using this
    rw [hnone]
    rfl
  · rw [if_neg h]
    exact Option.not_isSome_iff_eq_none.mp h

/-- Lookups depend only on the task table. -/
theorem taskGet_congr {t1 t2 : TaskManager} (h : t1.tasks = t2.tasks)
    (id : String) : t1.taskGet id = t2.taskGet id := by
  unfold TaskManager.taskGet
  rw [h]

/-- Behaviour of the leaf phase of `SubmitMetricTask`: the response channel
is returned in every case; the returned error is empty exactly when every
leaf send succeeded; any send failure (even partial) evicts the root task,
while an all-success fanout leaves the freshly stored metric context in the
table. -/
theorem submitLeafPhase_spec (t0 : TaskManager) (env : SubmitEnv)
    (plan : PhysicalPlan) (q : QueryStmt) (rootTaskID : String)
    (acts0 : List TMAct) :
    (t0.submitLeafPhase env plan q rootTaskID acts0).2.2.1 = true ∧
    ((t0.submitLeafPhase env plan q rootTaskID acts0).2.2.2 = none ↔
       ∀ n ∈ plan.leaves, env.sendErr n.indicator = none) ∧
    ((t0.submitLeafPhase env plan q rootTaskID acts0).2.2.2.isSome →
       (t0.submitLeafPhase env plan q rootTaskID acts0).1.taskGet rootTaskID =
         none) ∧
    ((t0.submitLeafPhase env plan q rootTaskID acts0).2.2.2 = none →
       (t0.submitLeafPhase env plan q rootTaskID acts0).1.taskGet rootTaskID =
         some (TaskContext.metric (newMetricTaskContext rootTaskID .RootTask
           "" "" q plan.root.numOfTask))) := by
  obtain ⟨ht, herr, -⟩ := fanout_spec env .leafReq rootTaskID plan.leaves
    (t0.storeTask rootTaskID (TaskContext.metric (newMetricTaskContext
      rootTaskID .RootTask "" "" q plan.root.numOfTask)))
  simp only [TaskManager.submitLeafPhase]
  cases hfe : ((t0.storeTask rootTaskID (TaskContext.metric
      (newMetricTaskContext rootTaskID .RootTask "" "" q
        plan.root.numOfTask))).fanout env .leafReq rootTaskID
      plan.leaves).2.2 with
  | some e =>
    rw [hfe] at herr
    simp only [hfe]
    refine ⟨trivial, ?_, fun _ => taskGet_evictTask_self _ _, fun h => by cases h⟩
    constructor
    · intro h; cases h
    · intro hall
      exact absurd (herr.mpr hall) (by simp)
  | none =>
    rw [hfe] at herr
    simp only [hfe]
    refine ⟨trivial, ?_, fun h => by simp at h, fun _ => ?_⟩
    · simpa using herr
    · rw [taskGet_congr ht rootTaskID]
      exact taskGet_storeTask_self _ _ _

/-- Environment for the C3 counterexample: the send to leaf `L1` fails, the
send to leaf `L2` succeeds. -/
def samplePartialEnv : SubmitEnv :=
  { sendErr := fun s => if s = "L1" then some "no stream" else none,
    ackWait := .received none }

/-- A two-leaf plan without intermediates. -/
def sampleLeafPlan : PhysicalPlan :=
  { root := { indicator := "R", numOfTask := 2 }, intermediates := [],
    leaves := [{ indicator := "L1" }, { indicator := "L2" }] }

/-- C3 counterexample: with two leaves of which only one send fails (the
other succeeds), `SubmitMetricTask` nevertheless returns the send error and
evicts the root task from the table — refuting "the root task is evicted and
the send error returned only when every leaf send fails; when only some of
the leaf sends fail ... the submit still returns the event channel with the
task left in the table". -/
theorem partial_send_failure_evicts_counterexample :
    (sampleManager.submitMetricTask samplePartialEnv sampleLeafPlan
        sampleQuery).2.2.2 = some (.sendFailure "no stream") ∧
    (sampleManager.submitMetricTask samplePartialEnv sampleLeafPlan
        sampleQuery).1.taskGet sampleManager.allocTaskID.1 = none := by
  have hsub : sampleManager.submitMetricTask samplePartialEnv sampleLeafPlan
      sampleQuery =
      TaskManager.submitLeafPhase sampleManager.allocTaskID.2 samplePartialEnv
        sampleLeafPlan sampleQuery sampleManager.allocTaskID.1 [] := by
    simp only [TaskManager.submitMetricTask]
    rw [if_neg (by decide)]
  have herr : (TaskManager.submitLeafPhase sampleManager.allocTaskID.2
      samplePartialEnv sampleLeafPlan sampleQuery sampleManager.allocTaskID.1
      []).2.2.2 = some (.sendFailure "no stream") := by decide
  refine ⟨by rw [hsub]; exact herr, ?_⟩
  rw [hsub]
  exact (submitLeafPhase_spec _ _ _ _ _ _).2.2.1 (by rw [herr]; rfl)

/-- C3 amended: in the leaf fanout of `SubmitMetricTask` (plan without
intermediates), the response channel is returned in every case, but ANY leaf
send failure — partial failures included — evicts the root task from the
table and returns the send error; the task stays in the table (with no error
returned) exactly when every leaf send succeeds. -/
theorem submit_leaf_send_failure (t : TaskManager) (env : SubmitEnv)
    (plan : PhysicalPlan) (q : QueryStmt) (hni : plan.intermediates = []) :
    (t.submitMetricTask env plan q).2.2.1 = true ∧
    ((∃ n ∈ plan.leaves, env.sendErr n.indicator ≠ none) →
       (t.submitMetricTask env plan q).2.2.2.isSome = true ∧
       (t.submitMetricTask env plan q).1.taskGet t.allocTaskID.1 = none) ∧
    ((∀ n ∈ plan.leaves, env.sendErr n.indicator = none) →
       (t.submitMetricTask env plan q).2.2.2 = none ∧
       ((t.submitMetricTask env plan q).1.taskGet t.allocTaskID.1).isSome =
         true) := by
  have hsub : t.submitMetricTask env plan q =
      TaskManager.submitLeafPhase t.allocTaskID.2 env plan q t.allocTaskID.1
        [] := by
    simp only [TaskManager.submitMetricTask]
    rw [if_neg (by simp [hni])]
  rw [hsub]
  obtain ⟨hch, herr, hev, hkeep⟩ :=
    submitLeafPhase_spec t.allocTaskID.2 env plan q t.allocTaskID.1 []
  refine ⟨hch, fun hex => ?_, fun hall => ?_⟩
  · have hne : (TaskManager.submitLeafPhase t.allocTaskID.2 env plan q
        t.allocTaskID.1 []).2.2.2 ≠ none := by
      intro h0
      rcases hex with ⟨n, hn, hne2⟩
      exact hne2 (herr.mp h0 n hn)
    have hs := Option.ne_none_iff_isSome.mp hne
    exact ⟨hs, hev hs⟩
  · have h0 := herr.mpr hall
    exact ⟨h0, by rw [hkeep h0]; rfl⟩

/-- Environment in which every send succeeds. -/
def sampleAllOkEnv : SubmitEnv :=
  { sendErr := fun _ => none, ackWait := .received none }

/-- Witness for C3 amended at concrete inputs: with every leaf send
succeeding, the submit returns no error and the root task stays in the
table. -/
theorem submit_leaf_send_failure_witness :
    (sampleManager.submitMetricTask sampleAllOkEnv sampleLeafPlan
        sampleQuery).2.2.2 = none ∧
    ((sampleManager.submitMetricTask sampleAllOkEnv sampleLeafPlan
        sampleQuery).1.taskGet sampleManager.allocTaskID.1).isSome = true :=
  (submit_leaf_send_failure sampleManager sampleAllOkEnv sampleLeafPlan
    sampleQuery rfl).2.2 (fun _ _ => rfl)

/-- Behaviour of the intermediate-ack handshake: the ack context is evicted
on every path (the trace records it and the final table misses the id); the
trace never contains a Leaf-typed send; and if every intermediate send
succeeded and the wait observed the caller's context firing, the result is
`ErrTimeout`. -/
theorem ensure_spec (t0 : TaskManager) (env : SubmitEnv)
    (plan : PhysicalPlan) (pid : String) :
    (t0.ensureIntermediateAckTasks env plan pid).1.taskGet pid = none ∧
    TMAct.evictTask pid ∈ (t0.ensureIntermediateAckTasks env plan pid).2.1 ∧
    (∀ a ∈ (t0.ensureIntermediateAckTasks env plan pid).2.1,
      ∀ target parent, a ≠ TMAct.sendRequest target .leafReq parent) ∧
    ((∀ n ∈ plan.intermediates, env.sendErr n.indicator = none) →
      env.ackWait = .ctxCanceled →
      (t0.ensureIntermediateAckTasks env plan pid).2.2 =
        some .errTimeout) := by
  obtain ⟨-, herr, hacts⟩ := fanout_spec env .intermediateReq pid
    plan.intermediates (t0.storeTask pid (TaskContext.ack
      (newIntermediateAckTaskContext pid TaskType.RootTask
        (plan.intermediates.length : Int))))
  simp only [TaskManager.ensureIntermediateAckTasks]
  refine ⟨taskGet_evictTask_self _ _, ?_, ?_, ?_⟩
  · simp
  · intro a ha target parent
    simp only [List.cons_append, List.mem_cons, List.mem_append,
      List.mem_singleton] at ha
    rcases ha with rfl | ha2 | rfl | h0
    · intro h; cases h
    · obtain ⟨tg, htg⟩ := hacts a ha2
      rw [htg]
      intro h
      cases h
    · intro h; cases h
    · cases h0
  · intro hall hcw
    rw [herr.mpr hall, hcw]

/-- Reduction of `SubmitMetricTask` when the plan has intermediates: an
error from the handshake short-circuits the submit with a nil channel; a
nil handshake result continues into the leaf phase. -/
theorem submit_inter_cases (t : TaskManager) (env : SubmitEnv)
    (plan : PhysicalPlan) (q : QueryStmt)
    (hgt : 0 < plan.intermediates.length) :
    (∀ e, (t.allocTaskID.2.ensureIntermediateAckTasks env plan
        t.allocTaskID.1).2.2 = some e →
      t.submitMetricTask env plan q =
        ((t.allocTaskID.2.ensureIntermediateAckTasks env plan
            t.allocTaskID.1).1,
         (t.allocTaskID.2.ensureIntermediateAckTasks env plan
            t.allocTaskID.1).2.1,
         false, some e)) ∧
    ((t.allocTaskID.2.ensureIntermediateAckTasks env plan
        t.allocTaskID.1).2.2 = none →
      t.submitMetricTask env plan q =
        TaskManager.submitLeafPhase
          (t.allocTaskID.2.ensureIntermediateAckTasks env plan
            t.allocTaskID.1).1
          env plan q t.allocTaskID.1
          (t.allocTaskID.2.ensureIntermediateAckTasks env plan
            t.allocTaskID.1).2.1) := by
  constructor
  · intro e he
    simp only [TaskManager.submitMetricTask]
    rw [if_pos hgt, he]
  · intro he
    simp only [TaskManager.submitMetricTask]
    rw [if_pos hgt, he]

/-- C2: in `SubmitMetricTask` with a non-empty intermediate list, a
Leaf-typed request can appear in the trace only when the intermediate-ack
handshake returned nil; and when the caller's context is cancelled while
waiting on the ack channel (all intermediate sends having succeeded), the
submit returns `ErrTimeout` with a nil channel, the ack task context has
been evicted from the task table, and no leaf request is ever sent. -/
theorem intermediate_ack_before_leaf (t : TaskManager) (env : SubmitEnv)
    (plan : PhysicalPlan) (q : QueryStmt)
    (hint : plan.intermediates ≠ []) :
    ((∃ a ∈ (t.submitMetricTask env plan q).2.1, ∃ target parent,
        a = TMAct.sendRequest target .leafReq parent) →
      (t.allocTaskID.2.ensureIntermediateAckTasks env plan
        t.allocTaskID.1).2.2 = none) ∧
    ((∀ n ∈ plan.intermediates, env.sendErr n.indicator = none) →
     env.ackWait = .ctxCanceled →
       (t.submitMetricTask env plan q).2.2.2 = some .errTimeout ∧
       (t.submitMetricTask env plan q).2.2.1 = false ∧
       (t.submitMetricTask env plan q).1.taskGet t.allocTaskID.1 = none ∧
       TMAct.evictTask t.allocTaskID.1 ∈ (t.submitMetricTask env plan q).2.1 ∧
       (∀ a ∈ (t.submitMetricTask env plan q).2.1, ∀ target parent,
          a ≠ TMAct.sendRequest target .leafReq parent)) := by
  have hgt : 0 < plan.intermediates.length := List.length_pos.mpr hint
  obtain ⟨hcsome, hcnone⟩ := submit_inter_cases t env plan q hgt
  obtain ⟨hget, hevict, hnoleaf, htimeout⟩ :=
    ensure_spec t.allocTaskID.2 env plan t.allocTaskID.1
  constructor
  · intro hex
    cases he : (t.allocTaskID.2.ensureIntermediateAckTasks env plan
        t.allocTaskID.1).2.2 with
    | none => rfl
    | some e =>
      rcases hex with ⟨a, ha, target, parent, haeq⟩
      rw [hcsome e he] at ha
      exact absurd haeq (hnoleaf a ha target parent)
  · intro hall hcw
    have he := htimeout hall hcw
    rw [hcsome _ he]
    exact ⟨rfl, rfl, hget, hevict, hnoleaf⟩

/-- A one-intermediate one-leaf plan for the C2 witness. -/
def sampleInterPlan : PhysicalPlan :=
  { root := { indicator := "R", numOfTask := 1 },
    intermediates := [{ indicator := "I1" }],
    leaves := [{ indicator := "L1" }] }

/-- Environment in which every send succeeds but the caller's context is
cancelled while waiting for the intermediate acks. -/
def sampleCancelEnv : SubmitEnv :=
  { sendErr := fun _ => none, ackWait := .ctxCanceled }

/-- Witness for C2 at concrete inputs: with one intermediate whose ack never
arrives before the context fires, the submit returns `ErrTimeout` with a nil
channel and its trace contains no leaf send. -/
theorem intermediate_ack_before_leaf_witness :
    (sampleManager.submitMetricTask sampleCancelEnv sampleInterPlan
        sampleQuery).2.2.2 = some .errTimeout ∧
    (sampleManager.submitMetricTask sampleCancelEnv sampleInterPlan
        sampleQuery).2.2.1 = false ∧
    (∀ a ∈ (sampleManager.submitMetricTask sampleCancelEnv sampleInterPlan
        sampleQuery).2.1, ∀ target parent,
       a ≠ TMAct.sendRequest target .leafReq parent) := by
  have h := (intermediate_ack_before_leaf sampleManager sampleCancelEnv
    sampleInterPlan sampleQuery (by decide)).2 (fun _ _ => rfl) rfl
  exact ⟨h.1, h.2.1, h.2.2.2.2⟩

theorem goContains_notFound_ne_empty {s : String}
    (h : goContains s "not found" = true) : s ≠ "" := by
  intro heq
  subst heq
  exact absurd h (by decide)

theorem handle_nf_pos (c : MetricTaskContext) (resp : TaskResponse)
    (node : String) (hnf : goContains resp.errMsg "not found" = true)
    (htol : c.tolerantNotFounds - 1 > 0) :
    ∃ st, c.handleTaskResponse resp node =
      ({ c with
          stats := st,
          tolerantNotFounds := c.tolerantNotFounds - 1 }, none) := by
  obtain ⟨st, hst⟩ := handleStats_shape c resp node
  refine ⟨st, ?_⟩
  simp only [MetricTaskContext.handleTaskResponse, hst,
    checkError_notFound_pos { c with stats := st } resp.errMsg
      (goContains_notFound_ne_empty hnf) hnf htol]
  rfl

theorem handle_nf_zero (c : MetricTaskContext) (resp : TaskResponse)
    (node : String) (hnf : goContains resp.errMsg "not found" = true)
    (htol : ¬ c.tolerantNotFounds - 1 > 0) :
    ∃ st, c.handleTaskResponse resp node =
      ({ c with
          stats := st,
          tolerantNotFounds := c.tolerantNotFounds - 1 },
       some (.msg resp.errMsg)) := by
  obtain ⟨st, hst⟩ := handleStats_shape c resp node
  refine ⟨st, ?_⟩
  simp only [MetricTaskContext.handleTaskResponse, hst,
    checkError_notFound_zero { c with stats := st } resp.errMsg
      (goContains_notFound_ne_empty hnf) hnf htol]

theorem handle_ok (c : MetricTaskContext) (resp : TaskResponse)
    (node : String) (tsl : TimeSeriesList)
    (hemsg : resp.errMsg = "") (hp : resp.payload = some tsl) :
    ∃ st sp ga, c.handleTaskResponse resp node =
      ({ c with stats := st, aggregatorSpecs := sp, groupAgg := ga },
       none) := by
  obtain ⟨st, hst⟩ := handleStats_shape c resp node
  simp only [MetricTaskContext.handleTaskResponse, hst, hemsg,
    checkError_empty, hp]
  simp only [Bool.false_eq_true, if_false]
  by_cases hl : tsl.fieldAggSpecs.length = 0
  · exact ⟨st, _, _, by rw [if_pos hl]⟩
  · rw [if_neg hl]
    cases hg : c.groupAgg <;> simp only [] <;> rw [aggregateSeries_spec] <;>
      exact ⟨st, _, _, rfl⟩

theorem handle_empty_payload (c : MetricTaskContext) (resp : TaskResponse)
    (node : String) (tsl : TimeSeriesList)
    (hemsg : resp.errMsg = "") (hp : resp.payload = some tsl)
    (hl : tsl.fieldAggSpecs.length = 0) :
    ∃ st, c.handleTaskResponse resp node = ({ c with stats := st }, none) := by
  obtain ⟨st, hst⟩ := handleStats_shape c resp node
  simp only [MetricTaskContext.handleTaskResponse, hst, hemsg,
    checkError_empty, hp]
  simp only [Bool.false_eq_true, if_false]
  exact ⟨st, by rw [if_pos hl]⟩

theorem metricWrite_ok_pending (c : MetricTaskContext) (resp : TaskResponse)
    (node : String) (rr : Bool) (C : MetricTaskContext)
    (hcl : c.closed = false)
    (hh : MetricTaskContext.handleTaskResponse
      { c with expectResults := c.expectResults - 1 } resp node = (C, none))
    (hpos : 0 < c.expectResults - 1) :
    c.writeResponse resp node rr = (C, []) := by
  have hC : C.expectResults = c.expectResults - 1 := by
    have h2 := (handleTaskResponse_preserves
      { c with expectResults := c.expectResults - 1 } resp node).1
    rw [hh] at h2
    simpa using h2
  simp only [MetricTaskContext.writeResponse, hh, MetricTaskContext.deferClose,
    hC]
  rw [if_neg (by simp [hcl]), if_pos hpos, if_neg (by omega)]

theorem metricWrite_ok_final (c : MetricTaskContext) (resp : TaskResponse)
    (node : String) (C : MetricTaskContext)
    (hcl : c.closed = false)
    (hh : MetricTaskContext.handleTaskResponse
      { c with expectResults := c.expectResults - 1 } resp node = (C, none))
    (hle : c.expectResults - 1 ≤ 0) :
    ∃ C2 ev, c.writeResponse resp node true = (C2, [.send ev, .close]) ∧
      ev.err = none ∧
      ev.seriesList = C.groupAgg.map GroupingAggregator.resultSet := by
  have hC : C.expectResults = c.expectResults - 1 := by
    have h2 := (handleTaskResponse_preserves
      { c with expectResults := c.expectResults - 1 } resp node).1
    rw [hh] at h2
    simpa using h2
  simp only [MetricTaskContext.writeResponse, hh, MetricTaskContext.deferClose,
    hC]
  rw [if_neg (by simp [hcl]), if_neg (by omega)]
  cases hstc : C.stats with
  | none =>
    simp only []
    rw [if_pos (show C.expectResults ≤ 0 by omega), if_pos trivial]
    exact ⟨_, _, rfl, rfl, rfl⟩
  | some s =>
    simp only []
    rw [if_pos hle, if_pos trivial]
    exact ⟨_, _, rfl, rfl, rfl⟩

/-- Run lemma for C10: a run of empty successful responses (no field agg
specs anywhere) on an open context with a `none` aggregator and matching
expectation count ends in exactly one terminal success event with a nil
series list, then the close. -/
theorem run_all_empty_success (l : List (TaskResponse × String))
    (c : MetricTaskContext) (hcl : c.closed = false)
    (hga : c.groupAgg = none) (hexp : c.expectResults = l.length)
    (hne : l ≠ [])
    (hall : ∀ p ∈ l, p.1.errMsg = "" ∧
      ∃ tsl, p.1.payload = some tsl ∧ tsl.fieldAggSpecs.length = 0) :
    ∃ ev, (c.run true l).2 = [MetricChanAct.send ev, MetricChanAct.close] ∧
      ev.err = none ∧ ev.seriesList = none := by
  induction l generalizing c with
  | nil => exact absurd rfl hne
  | cons p rest ih =>
    obtain ⟨hemsg, tsl, hp, hl⟩ := hall p (List.mem_cons_self p rest)
    obtain ⟨st, hh⟩ := handle_empty_payload
      { c with expectResults := c.expectResults - 1 } p.1 p.2 tsl hemsg hp hl
    cases rest with
    | nil =>
      have hle : c.expectResults - 1 ≤ 0 := by
        rw [hexp]
        simp
      obtain ⟨C2, ev, hw, hevn, hevs⟩ := metricWrite_ok_final c p.1 p.2 _
        hcl hh hle
      refine ⟨ev, ?_, hevn, ?_⟩
      · show (c.writeResponse p.1 p.2 true).2 ++
          ((c.writeResponse p.1 p.2 true).1.run true []).2 = _
        rw [hw]
        rfl
      · rw [hevs]
        simp [hga]
    | cons q rest2 =>
      have hpos : 0 < c.expectResults - 1 := by
        rw [hexp]
        simp only [List.length_cons]
        omega
      have hw := metricWrite_ok_pending c p.1 p.2 true _ hcl hh hpos
      have hrec := ih
        { { c with expectResults := c.expectResults - 1 } with stats := st }
        (by simpa using hcl) (by simpa using hga)
        (by show c.expectResults - 1 = _
            rw [hexp]
            simp)
        (by simp)
        (fun p2 hp2 => hall p2 (List.mem_cons_of_mem p hp2))
      obtain ⟨ev, hrun, hevn, hevs⟩ := hrec
      refine ⟨ev, ?_, hevn, hevs⟩
      show (c.writeResponse p.1 p.2 true).2 ++
        ((c.writeResponse p.1 p.2 true).1.run true (q :: rest2)).2 = _
      rw [hw]
      simpa using hrun

/-- C10: if a MetricTaskContext created with `expectResults = k ≥ 1`
consumes all k responses successfully but no response ever carried a
non-empty `FieldAggSpecs` (so the grouping aggregator is never built), the
terminal event before the close is a success event with a nil series list
and nil error: an all-empty query completes successfully with an empty
result. -/
theorem all_empty_query_completes (taskID : String) (tt : TaskType)
    (ptid pn : String) (q : QueryStmt) (k : Nat) (hk : 1 ≤ k)
    (l : List (TaskResponse × String)) (hlen : l.length = k)
    (hall : ∀ p ∈ l, p.1.errMsg = "" ∧
      ∃ tsl, p.1.payload = some tsl ∧ tsl.fieldAggSpecs.length = 0) :
    ∃ ev, ((newMetricTaskContext taskID tt ptid pn q (k : Int)).run true l).2 =
        [MetricChanAct.send ev, MetricChanAct.close] ∧
      ev.err = none ∧ ev.seriesList = none := by
  apply run_all_empty_success l _ rfl rfl
  · show (k : Int) = l.length
    rw [hlen]
  · intro h0
    rw [h0] at hlen
    simp at hlen
    omega
  · exact hall

/-- An empty successful response (no stats, empty payload), for concrete
witnesses. -/
def emptyOkResp : TaskResponse :=
  { taskID := "t1", type := .leaf, errMsg := "",
    payload := some { timeSeriesList := [], fieldAggSpecs := [] },
    payloadLen := 0, stats := [] }

/-- Witness for C10 at a concrete two-response all-empty run. -/
theorem all_empty_query_completes_witness :
    ∃ ev, ((newMetricTaskContext "t1" .RootTask "" "" sampleQuery
        ((2 : Nat) : Int)).run true
        [(emptyOkResp, "a"), (emptyOkResp, "b")]).2 =
        [MetricChanAct.send ev, MetricChanAct.close] ∧
      ev.err = none ∧ ev.seriesList = none :=
  all_empty_query_completes "t1" .RootTask "" "" sampleQuery 2 (by decide)
    [(emptyOkResp, "a"), (emptyOkResp, "b")] rfl
    (by
      intro p hp
      simp only [List.mem_cons, List.not_mem_nil, or_false] at hp
      rcases hp with rfl | rfl <;>
        exact ⟨rfl, { timeSeriesList := [], fieldAggSpecs := [] }, rfl, rfl⟩)

/-- Number of responses in a run whose error message contains
`"not found"`. -/
def countNF (l : List (TaskResponse × String)) : Nat :=
  (l.filter (fun p => goContains p.1.errMsg "not found")).length

theorem filter_length_eq_all {α : Type} (p : α → Bool) :
    ∀ l : List α, (l.filter p).length = l.length → ∀ a ∈ l, p a = true := by
  intro l
  induction l with
  | nil =>
    intro _ a ha
    cases ha
  | cons x t ih =>
    intro h a ha
    by_cases hx : p x = true
    · rw [List.filter_cons_of_pos hx] at h
      simp only [List.length_cons] at h
      rcases List.mem_cons.mp ha with rfl | ha2
      · exact hx
      · exact ih (by omega) a ha2
    · rw [List.filter_cons_of_neg (by simpa using hx)] at h
      have hle := List.length_filter_le p t
      simp only [List.length_cons] at h
      omega

/-- Run lemma for C1, tolerated case: as long as strictly fewer not-found
responses remain than the current tolerance allows, a run of not-found and
successful responses matching the expectation count ends in exactly one
terminal success event and the close. -/
theorem run_tolerated_notfounds (l : List (TaskResponse × String))
    (c : MetricTaskContext) (hcl : c.closed = false)
    (hexp : c.expectResults = l.length)
    (htol : (countNF l : Int) + 1 ≤ c.tolerantNotFounds)
    (hne : l ≠ [])
    (hall : ∀ p ∈ l, goContains p.1.errMsg "not found" = true ∨
      (p.1.errMsg = "" ∧ ∃ tsl, p.1.payload = some tsl)) :
    ∃ ev, (c.run true l).2 = [MetricChanAct.send ev, MetricChanAct.close] ∧
      ev.err = none := by
  induction l generalizing c with
  | nil => exact absurd rfl hne
  | cons p rest ih =>
    have hstep : ∃ C, MetricTaskContext.handleTaskResponse
        { c with expectResults := c.expectResults - 1 } p.1 p.2 = (C, none) ∧
        C.closed = c.closed ∧ C.expectResults = c.expectResults - 1 ∧
        (countNF rest : Int) + 1 ≤ C.tolerantNotFounds := by
      rcases hall p (List.mem_cons_self p rest) with hnf | ⟨hemsg, tsl, hp⟩
      · have hcount : countNF (p :: rest) = countNF rest + 1 := by
          simp [countNF, List.filter_cons, hnf]
        have htolc : ({ c with expectResults := c.expectResults - 1 } :
            MetricTaskContext).tolerantNotFounds - 1 > 0 := by
          show c.tolerantNotFounds - 1 > 0
          rw [hcount] at htol
          push_cast at htol
          omega
        obtain ⟨st, hh⟩ := handle_nf_pos _ p.1 p.2 hnf htolc
        refine ⟨_, hh, rfl, rfl, ?_⟩
        show (countNF rest : Int) + 1 ≤ c.tolerantNotFounds - 1
        rw [hcount] at htol
        push_cast at htol
        omega
      · have hcount : countNF (p :: rest) = countNF rest := by
          have hnp : goContains p.1.errMsg "not found" = false := by
            rw [hemsg]
            decide
          simp [countNF, List.filter_cons, hnp]
        obtain ⟨st, sp, ga, hh⟩ := handle_ok _ p.1 p.2 tsl hemsg hp
        refine ⟨_, hh, rfl, rfl, ?_⟩
        show (countNF rest : Int) + 1 ≤ c.tolerantNotFounds
        rw [hcount] at htol
        exact htol
    obtain ⟨C, hh, hCc, hCe, hCt⟩ := hstep
    cases rest with
    | nil =>
      have hle : c.expectResults - 1 ≤ 0 := by
        rw [hexp]
        simp
      obtain ⟨C2, ev, hw, hevn, -⟩ := metricWrite_ok_final c p.1 p.2 C hcl hh
        hle
      refine ⟨ev, ?_, hevn⟩
      show (c.writeResponse p.1 p.2 true).2 ++
        ((c.writeResponse p.1 p.2 true).1.run true []).2 = _
      rw [hw]
      rfl
    | cons q2 rest2 =>
      have hpos : 0 < c.expectResults - 1 := by
        rw [hexp]
        simp only [List.length_cons]
        push_cast
        omega
      have hw := metricWrite_ok_pending c p.1 p.2 true C hcl hh hpos
      obtain ⟨ev, hrun, hevn⟩ := ih C (by rw [hCc]; exact hcl)
        (by rw [hCe, hexp]; simp) hCt (by simp)
        (fun p2 hp2 => hall p2 (List.mem_cons_of_mem p hp2))
      refine ⟨ev, ?_, hevn⟩
      show (c.writeResponse p.1 p.2 true).2 ++
        ((c.writeResponse p.1 p.2 true).1.run true (q2 :: rest2)).2 = _
      rw [hw]
      simpa using hrun

/-- Run lemma for C1, all-not-found case: when every response is a
not-found and the tolerance equals the number of responses, the run ends in
one terminal event carrying a not-found error, then the close. -/
theorem run_all_notfounds (l : List (TaskResponse × String))
    (c : MetricTaskContext) (hcl : c.closed = false)
    (hexp : c.expectResults = l.length)
    (htol : c.tolerantNotFounds = l.length)
    (hne : l ≠ [])
    (hall : ∀ p ∈ l, goContains p.1.errMsg "not found" = true) :
    ∃ ev msg, (c.run true l).2 =
        [MetricChanAct.send ev, MetricChanAct.close] ∧
      ev.err = some (.msg msg) ∧ goContains msg "not found" = true := by
  induction l generalizing c with
  | nil => exact absurd rfl hne
  | cons p rest ih =>
    have hnf := hall p (List.mem_cons_self p rest)
    cases rest with
    | nil =>
      have htolz : ¬ ({ c with expectResults := c.expectResults - 1 } :
          MetricTaskContext).tolerantNotFounds - 1 > 0 := by
        show ¬ c.tolerantNotFounds - 1 > 0
        rw [htol]
        simp
      obtain ⟨st, hh⟩ := handle_nf_zero _ p.1 p.2 hnf htolz
      have hle : c.expectResults - 1 ≤ 0 := by
        rw [hexp]
        simp
      have hw := metricWrite_err_eq c p.1 p.2 _ _ hcl hh
      rw [if_pos hle] at hw
      have htr : (c.run true [p]).2 =
          [MetricChanAct.send { err := some (.msg p.1.errMsg), stats := st },
           MetricChanAct.close] := by
        show (c.writeResponse p.1 p.2 true).2 ++
          ((c.writeResponse p.1 p.2 true).1.run true []).2 = _
        rw [hw]
        rfl
      exact ⟨_, p.1.errMsg, htr, rfl, hnf⟩
    | cons q2 rest2 =>
      have htolc : ({ c with expectResults := c.expectResults - 1 } :
          MetricTaskContext).tolerantNotFounds - 1 > 0 := by
        show c.tolerantNotFounds - 1 > 0
        rw [htol]
        simp only [List.length_cons]
        push_cast
        omega
      have hstep : ∃ C, MetricTaskContext.handleTaskResponse
          { c with expectResults := c.expectResults - 1 } p.1 p.2 =
            (C, none) ∧
          C.closed = c.closed ∧ C.expectResults = c.expectResults - 1 ∧
          C.tolerantNotFounds = c.tolerantNotFounds - 1 := by
        obtain ⟨st, hh⟩ := handle_nf_pos _ p.1 p.2 hnf htolc
        exact ⟨_, hh, rfl, rfl, rfl⟩
      obtain ⟨C, hh, hCc, hCe, hCt⟩ := hstep
      have hpos : 0 < c.expectResults - 1 := by
        rw [hexp]
        simp only [List.length_cons]
        push_cast
        omega
      have hw := metricWrite_ok_pending c p.1 p.2 true C hcl hh hpos
      obtain ⟨ev, msg, hrun, hevn, hmsg⟩ := ih C (by rw [hCc]; exact hcl)
        (by rw [hCe, hexp]; simp)
        (by rw [hCt, htol]; simp)
        (by simp)
        (fun p2 hp2 => hall p2 (List.mem_cons_of_mem p hp2))
      refine ⟨ev, msg, ?_, hevn, hmsg⟩
      show (c.writeResponse p.1 p.2 true).2 ++
        ((c.writeResponse p.1 p.2 true).1.run true (q2 :: rest2)).2 = _
      rw [hw]
      simpa using hrun

/-- C1: for a MetricTaskContext created with `expectResults = k ≥ 1` (so
`tolerantNotFounds` starts at `k`), over any arrival order of `k` responses
of which `m` carry an `ErrMsg` containing `"not found"` and the rest
succeed: when `m ≤ k-1` every not-found is ignored and the terminal event is
a successful aggregation (nil error) followed by the close; when `m = k` the
response that brings the tolerance to zero surfaces its message, which
becomes the error of the terminal event and contains `"not found"`. -/
theorem notfound_tolerance (taskID ptid pn : String) (tt : TaskType)
    (q : QueryStmt) (k : Nat) (hk : 1 ≤ k)
    (l : List (TaskResponse × String)) (hlen : l.length = k)
    (hall : ∀ p ∈ l, goContains p.1.errMsg "not found" = true ∨
      (p.1.errMsg = "" ∧ ∃ tsl, p.1.payload = some tsl)) :
    (countNF l ≤ k - 1 →
      ∃ ev, ((newMetricTaskContext taskID tt ptid pn q (k : Int)).run true
          l).2 = [MetricChanAct.send ev, MetricChanAct.close] ∧
        ev.err = none) ∧
    (countNF l = k →
      ∃ ev msg, ((newMetricTaskContext taskID tt ptid pn q (k : Int)).run
          true l).2 = [MetricChanAct.send ev, MetricChanAct.close] ∧
        ev.err = some (.msg msg) ∧ goContains msg "not found" = true) := by
  have hne : l ≠ [] := by
    intro h0
    rw [h0] at hlen
    simp at hlen
    omega
  constructor
  · intro hm
    exact run_tolerated_notfounds l _ rfl
      (by show (k : Int) = _; rw [hlen])
      (by show (countNF l : Int) + 1 ≤ (k : Int); omega)
      hne hall
  · intro hm
    have hallnf : ∀ p ∈ l, goContains p.1.errMsg "not found" = true := by
      apply filter_length_eq_all
      show countNF l = l.length
      rw [hm, hlen]
    exact run_all_notfounds l _ rfl
      (by show (k : Int) = _; rw [hlen])
      (by show (k : Int) = _; rw [hlen])
      hne hallnf

/-- A not-found response, for concrete witnesses. -/
def nfRespSample : TaskResponse :=
  { taskID := "t1", type := .leaf, errMsg := "tsdb: shard not found",
    payload := none, payloadLen := 0, stats := [] }

/-- Witness for C1 at a concrete run: two expected responses, one not-found
and one empty success, end in a successful terminal event. -/
theorem notfound_tolerance_witness :
    ∃ ev, ((newMetricTaskContext "t1" .RootTask "" "" sampleQuery
        ((2 : Nat) : Int)).run true
        [(nfRespSample, "a"), (emptyOkResp, "b")]).2 =
        [MetricChanAct.send ev, MetricChanAct.close] ∧
      ev.err = none :=
  (notfound_tolerance "t1" "" "" .RootTask sampleQuery 2 (by decide)
    [(nfRespSample, "a"), (emptyOkResp, "b")] rfl
    (by
      intro p hp
      simp only [List.mem_cons, List.not_mem_nil, or_false] at hp
      rcases hp with rfl | rfl
      · exact Or.inl (by decide)
      · exact Or.inr ⟨rfl, { timeSeriesList := [], fieldAggSpecs := [] },
          rfl⟩)).1
    (by decide)
